import Mathlib

/-!
Shallow embedding of batsim-py's simulation control loop
(src/batsim_py/simulator.py, class SimulatorHandler).

The simulator handler mirrors the state of an external Batsim engine:
a job registry, a platform of hosts with power states, a pending-request
batch, and a callback table.  Caller actions (allocate, kill, reject,
power changes) mutate the mirror and queue protocol requests; the control
loop flushes requests, receives engine events and dispatches them.

Python semantics are modelled explicitly:
* times are rationals; the current_time property rounds to one decimal;
* a raised exception is an error outcome that still carries the state at
  the moment of the raise (Python mutations are not rolled back);
* a blocking network receive with an empty inbox is a distinguished
  "blocked" outcome (the spec states the receive has no timeout);
* Python truthiness of optional floats (None and 0.0 are falsy) is made
  explicit via truthyOpt.

The Host, Job and Platform classes and the protocol request classes live
in modules of this repository that are not part of src/ (resources.py,
jobs.py, protocol.py); their state machines are modelled from the spec,
as indicated on each definition.
-/

namespace BatsimPy

/-- Modelled from the spec: host activity states of resources.py
(spec 4.3: idle, computing, sleeping, switching-on, switching-off). -/
inductive HostState
  | idle
  | computing
  | sleeping
  | switchingOn
  | switchingOff
deriving DecidableEq

/-- Modelled from the spec: the Host mirror of resources.py (spec 3):
identity, activity state, current power-state id, the designated default
and sleep power states, and the catalog of computation power-state ids. -/
structure Host where
  id : Nat
  state : HostState
  pstateId : Nat
  defaultPStateId : Nat
  sleepPStateId : Nat
  computationPStateIds : List Nat
  assignedJobs : List String
deriving DecidableEq

/-- Errors raised by the handler, by Python exception class. -/
inductive SimError
  | runtimeError
  | valueError
  | lookupError
  | systemError
  | typeError
deriving DecidableEq

def Host.isIdle (h : Host) : Bool := h.state == .idle
def Host.isComputing (h : Host) : Bool := h.state == .computing
def Host.isSleeping (h : Host) : Bool := h.state == .sleeping
def Host.isSwitchingOn (h : Host) : Bool := h.state == .switchingOn
def Host.isSwitchingOff (h : Host) : Bool := h.state == .switchingOff

/-- Modelled from the spec: Host._switch_on of resources.py.  Switch-on
requires the current state sleeping (spec 4.3); the action is requested
locally, so the host enters the transitional switching-on state. -/
def Host.hSwitchOn (h : Host) : Except SimError Host :=
  if h.state = .sleeping then .ok { h with state := .switchingOn }
  else .error .runtimeError

/-- Modelled from the spec: Host._switch_off of resources.py.  Switch-off
requires the current state idle (spec 4.3); the host enters the
transitional switching-off state. -/
def Host.hSwitchOff (h : Host) : Except SimError Host :=
  if h.state = .idle then .ok { h with state := .switchingOff }
  else .error .runtimeError

/-- Modelled from the spec: Host._set_computation_pstate of resources.py.
An explicit computation power-state change requires the host idle or
computing and a valid catalog entry (spec 4.3). -/
def Host.hSetComputationPstate (h : Host) (ps : Nat) : Except SimError Host :=
  if (h.state = .idle ∨ h.state = .computing) ∧ ps ∈ h.computationPStateIds then
    .ok { h with pstateId := ps }
  else .error .runtimeError

/-- Modelled from the spec: Host._set_off of resources.py.  The engine
reported the end of a switch-off transition: the host reaches the sleep
power state and the sleeping activity state (spec 4.3). -/
def Host.hSetOff (h : Host) : Host :=
  { h with state := .sleeping, pstateId := h.sleepPStateId }

/-- Modelled from the spec: Host._set_on of resources.py.  The engine
reported the end of a switch-on transition: the host becomes idle at the
default power state (spec 4.3). -/
def Host.hSetOn (h : Host) : Host :=
  { h with state := .idle, pstateId := h.defaultPStateId }

/-- Modelled from the spec: Host._allocate of resources.py binds a job to
the host (spec 3: assigned job, set when allocated). -/
def Host.hAllocate (h : Host) (jobId : String) : Host :=
  { h with assignedJobs := h.assignedJobs ++ [jobId] }

/-- Modelled from the spec: job lifecycle states of jobs.py (spec 4.2). -/
inductive JobState
  | submitted
  | allocated
  | running
  | completed
  | killed
  | rejected
deriving DecidableEq

/-- Modelled from the spec: the Job record of jobs.py (spec 3): identity,
state, allocation (set at most once), submission, start, completion. -/
structure Job where
  id : String
  state : JobState
  allocation : List Nat
  subtime : ℚ
  startTime : Option ℚ
  stopTime : Option ℚ
deriving DecidableEq

def Job.isSubmitted (j : Job) : Bool := j.state == .submitted
def Job.isRunnable (j : Job) : Bool := j.state == .allocated
def Job.isRunning (j : Job) : Bool := j.state == .running

/-- Modelled from the spec: Job._submit of jobs.py, invoked when the
engine reports the submission (spec 4.2: submit creates the job). -/
def Job.jSubmit (j : Job) (t : ℚ) : Job :=
  { j with state := .submitted, subtime := t }

/-- Modelled from the spec: Job._allocate of jobs.py records the host set
and requires the submitted state (spec 4.2). -/
def Job.jAllocate (j : Job) (hosts : List Nat) : Except SimError Job :=
  if j.state = .submitted then
    .ok { j with state := .allocated, allocation := hosts }
  else .error .runtimeError

/-- Modelled from the spec: Job._start of jobs.py records the start time;
it requires the allocated (runnable) state (spec 4.2). -/
def Job.jStart (j : Job) (t : ℚ) : Except SimError Job :=
  if j.state = .allocated then
    .ok { j with state := .running, startTime := some t }
  else .error .runtimeError

/-- Modelled from the spec: Job._terminate of jobs.py requires the running
state and records end time and outcome (spec 4.2). -/
def Job.jTerminate (j : Job) (t : ℚ) (finalState : JobState) : Except SimError Job :=
  if j.state = .running then
    .ok { j with state := finalState, stopTime := some t }
  else .error .systemError

/-- A callback stored in the callback table.  The internal unflag callback
of proceed_time stops the control loop; user callbacks are identified by a
number and their invocations are recorded in an invocation log. -/
inductive Callback
  | unflag
  | user (n : Nat)
deriving DecidableEq

/-- Modelled from the spec: the outbound protocol requests of protocol.py
(spec 6: execute-job, kill-job, reject-job, set-resource-state,
call-me-later), each tagged with the timestamp at which it was queued. -/
inductive BatsimRequest
  | callMeLater (timestamp : ℚ) (att : ℚ)
  | killJob (timestamp : ℚ) (jobId : String)
  | rejectJob (timestamp : ℚ) (jobId : String)
  | executeJob (timestamp : ℚ) (jobId : String) (alloc : List Nat)
  | setResourceState (timestamp : ℚ) (resources : List Nat) (state : Nat)
deriving DecidableEq

/-- The host ids targeted by a request (nonempty only for
set-resource-state requests). -/
def BatsimRequest.resources : BatsimRequest → List Nat
  | .setResourceState _ res _ => res
  | _ => []

/-- Modelled from the spec: SetResourceStateBatsimRequest.add_resource of
protocol.py adds a host id to an existing request's host set (spec 4.4). -/
def BatsimRequest.addResource (r : BatsimRequest) (hostId : Nat) : BatsimRequest :=
  match r with
  | .setResourceState t res ps => .setResourceState t (res ++ [hostId]) ps
  | other => other

/-- Modelled from the spec: the inbound engine events of protocol.py
(spec 6), each carrying its own timestamp. -/
inductive BatsimEvent
  | simulationBegins (timestamp : ℚ) (platform : List Host)
  | simulationEnds (timestamp : ℚ)
  | jobSubmitted (timestamp : ℚ) (job : Job)
  | jobCompleted (timestamp : ℚ) (jobId : String) (finalState : JobState)
  | resourceStateChanged (timestamp : ℚ) (resources : List Nat) (pstate : Nat)
  | requestedCall (timestamp : ℚ)
  | noMoreJobsToSubmit (timestamp : ℚ)
deriving DecidableEq

def BatsimEvent.timestamp : BatsimEvent → ℚ
  | .simulationBegins t _ => t
  | .simulationEnds t => t
  | .jobSubmitted t _ => t
  | .jobCompleted t _ _ => t
  | .resourceStateChanged t _ _ => t
  | .requestedCall t => t
  | .noMoreJobsToSubmit t => t

/-- Modelled from the spec: an inbound protocol message of protocol.py, a
timestamped envelope with an ordered event list; the authoritative now is
the envelope's own timestamp (spec 3). -/
structure BatsimMessage where
  now : ℚ
  events : List BatsimEvent
deriving DecidableEq

/-- An outbound protocol message: the flushed request batch. -/
structure OutMessage where
  now : ℚ
  requests : List BatsimRequest
deriving DecidableEq

/-- The mirrored state owned by SimulatorHandler (simulator.py), plus the
observable transport traffic: an inbox of engine messages still to be
received, the list of sent messages, and the callback invocation log. -/
structure SimState where
  rawTime : ℚ
  running : Bool
  simulationTime : Option ℚ
  platform : Option (List Host)
  noMoreJobsToSubmit : Bool
  batsimRequests : List BatsimRequest
  jobs : List Job
  callbacks : List (ℚ × List Callback)
  waitCallback : Bool
  inbox : List BatsimMessage
  sent : List OutMessage
  invoked : List (Callback × ℚ)
deriving DecidableEq

/-- Rounding to one decimal place, as the current_time property does with
float formatting (simulator.py line 123).  Implemented on numerator and
denominator so that it evaluates inside the kernel; the theorem
roundTenth_eq identifies it with the standard rounding
(round (10 * q)) / 10. -/
def roundTenth (q : ℚ) : ℚ := mkRat ((20 * q.num + (q.den : ℤ)) / (2 * (q.den : ℤ))) 10

/-- Rational addition, implemented on numerators and denominators so that
it evaluates inside the kernel; the theorem qadd_eq identifies it with
ordinary addition. -/
def qadd (a b : ℚ) : ℚ := mkRat (a.num * b.den + b.num * a.den) (a.den * b.den)

/-- The current_time property (simulator.py lines 120-123): the internal
simulation time rounded to one decimal place. -/
def SimState.currentTime (s : SimState) : ℚ := roundTenth s.rawTime

/-- Python truthiness of an optional float: None and 0.0 are falsy. -/
def truthyOpt : Option ℚ → Bool
  | none => false
  | some t => t != 0

/-- Result of a non-blocking handler action: either a final state, or a
raised exception together with the state at the moment of the raise
(Python does not roll back mutations made before a raise). -/
abbrev Act := Except (SimError × SimState) SimState

/-- The state carried by an action result, for either outcome. -/
def Act.state : Act → SimState
  | .ok s => s
  | .error (_, s) => s

/-- The error raised by an action, if any. -/
def Act.errOf : Act → Option SimError
  | .ok _ => none
  | .error (e, _) => some e

/-- Result of an operation that may block on the network receive. -/
inductive Outcome
  | ok (s : SimState)
  | err (e : SimError) (s : SimState)
  | blocked (s : SimState)
deriving DecidableEq

/-- The state carried by an outcome. -/
def Outcome.state : Outcome → SimState
  | .ok s => s
  | .err _ s => s
  | .blocked s => s

/-- The error raised by an outcome, if any. -/
def Outcome.errOf : Outcome → Option SimError
  | .ok _ => none
  | .err e _ => some e
  | .blocked _ => none

/-- The state carried by the result of the per-allocation readiness loop
of __start_runnable_jobs, for either outcome. -/
def checkState : Except (SimError × SimState) (SimState × Bool) → SimState
  | .ok (s, _) => s
  | .error (_, s) => s

/-- Lookup of a host by id.  Modelled from the spec: Platform.get of
resources.py fails with a not-found condition if absent (spec 3). -/
def getHost (p : List Host) (hid : Nat) : Except SimError Host :=
  match p.find? (fun h => h.id == hid) with
  | some h => .ok h
  | none => .error .lookupError

/-- The mirrored host record for a given id, if the platform is loaded
and the host exists. -/
def hostInfo (s : SimState) (hid : Nat) : Option Host :=
  match s.platform with
  | none => none
  | some p => p.find? (fun h => h.id == hid)

/-- The mirrored power-state id of a host, if present. -/
def hostPstates (s : SimState) (hid : Nat) : Option Nat :=
  (hostInfo s hid).map Host.pstateId

/-- The mirrored activity state of a host, if present. -/
def hostActivity (s : SimState) (hid : Nat) : Option HostState :=
  (hostInfo s hid).map Host.state

/-- self.__platform.get(h_id): SystemError when the platform is not
loaded, LookupError when the host id is unknown. -/
def SimState.getPlatformHost (s : SimState) (hid : Nat) : Except SimError Host :=
  match s.platform with
  | none => .error .systemError
  | some p => getHost p hid

/-- In-place mutation of the first host carrying the given host's id, as
Python mutates the object returned by Platform.get. -/
def updateHostL : List Host → Host → List Host
  | [], _ => []
  | x :: xs, h => if x.id = h.id then h :: xs else x :: updateHostL xs h

/-- Write back a mutated host into the platform mirror. -/
def SimState.setHost (s : SimState) (h : Host) : SimState :=
  { s with platform := s.platform.map (fun p => updateHostL p h) }

/-- In-place mutation of the first job carrying the given id, as Python
mutates the object returned by the generator lookup. -/
def setJob : List Job → String → Job → List Job
  | [], _, _ => []
  | x :: xs, jid, j => if x.id = jid then j :: xs else x :: setJob xs jid j

/-- next((j for j in self.__jobs if j.id == job_id), None). -/
def findJob (jobs : List Job) (jobId : String) : Option Job :=
  jobs.find? (fun j => j.id == jobId)

/-- Remove the first job with the given id, as list.remove does with the
object found by the lookup. -/
def removeJob : List Job → String → List Job
  | [], _ => []
  | x :: xs, jid => if x.id = jid then xs else x :: removeJob xs jid

/-- self.__callbacks[at].append(call) on the defaultdict: append to the
entry for the exact time, creating it if needed. -/
def addCallback : List (ℚ × List Callback) → ℚ → Callback → List (ℚ × List Callback)
  | [], t, c => [(t, [c])]
  | (t', cs) :: rest, t, c =>
    if t' = t then (t', cs ++ [c]) :: rest
    else (t', cs) :: addCallback rest t c

/-- Dictionary lookup on the callback table. -/
def lookupCallbacks : List (ℚ × List Callback) → ℚ → Option (List Callback)
  | [], _ => none
  | (t', cs) :: rest, t => if t' = t then some cs else lookupCallbacks rest t

/-- del self.__callbacks[t]: remove the entry for the exact time. -/
def eraseCallbacks : List (ℚ × List Callback) → ℚ → List (ℚ × List Callback)
  | [], _ => []
  | (t', cs) :: rest, t =>
    if t' = t then eraseCallbacks rest t
    else (t', cs) :: eraseCallbacks rest t

/-- The callbacks registered for exactly a given time. -/
def callbacksAt (s : SimState) (t : ℚ) : List Callback :=
  (lookupCallbacks s.callbacks t).getD []

/-- The matching test of get_old_request inside __set_batsim_host_pstate
(simulator.py lines 540-551): same timestamp, a set-resource-state
request, same destination power state. -/
def matchesPstateRequest (t : ℚ) (ps : Nat) : BatsimRequest → Bool
  | .setResourceState t' _ ps' => t' == t && ps' == ps
  | _ => false

/-- __set_batsim_host_pstate on the request list: mutate the first
matching request by adding the host id, or append a fresh request at the
end (simulator.py lines 538-561). -/
def coalescePstate (t : ℚ) (ps : Nat) (hostId : Nat) : List BatsimRequest → List BatsimRequest
  | [] => [.setResourceState t [hostId] ps]
  | r :: rs =>
    if matchesPstateRequest t ps r then r.addResource hostId :: rs
    else r :: coalescePstate t ps hostId rs

/-- __set_batsim_host_pstate (simulator.py lines 538-561). -/
def SimState.setBatsimHostPstate (s : SimState) (hostId pstateId : Nat) : SimState :=
  { s with batsimRequests := coalescePstate s.currentTime pstateId hostId s.batsimRequests }

/-- __set_batsim_call_me_later (simulator.py lines 530-536): drop requests
for past times and deduplicate by exact target time. -/
def SimState.setBatsimCallMeLater (s : SimState) (att : ℚ) : SimState :=
  if att ≤ s.currentTime then s
  else if s.batsimRequests.any (fun r =>
      match r with
      | .callMeLater _ a => a == att
      | _ => false) then s
  else { s with batsimRequests := s.batsimRequests ++ [.callMeLater s.currentTime att] }

/-- __send_requests (simulator.py lines 574-578): flush the batch, tagged
with the current simulated time, then clear it. -/
def SimState.sendRequests (s : SimState) : SimState :=
  { s with sent := s.sent ++ [⟨s.currentTime, s.batsimRequests⟩],
           batsimRequests := [] }

/-- close (simulator.py lines 207-220): no-op when not running; otherwise
terminate the engine, clear pending requests and callbacks. -/
def SimState.close (s : SimState) : SimState :=
  if ¬ s.running then s
  else { s with running := false, simulationTime := none,
                batsimRequests := [], callbacks := [] }

/-- Whether a set-resource-state request for the given host and
destination power state is pending in a request list. -/
def requestedIn (rs : List BatsimRequest) (hid ps : Nat) : Prop :=
  ∃ t res, BatsimRequest.setResourceState t res ps ∈ rs ∧ hid ∈ res

/-- Whether a set-resource-state request for the given host and
destination power state is pending in the state. -/
def pstateRequested (s : SimState) (hid ps : Nat) : Prop :=
  requestedIn s.batsimRequests hid ps

/-- The per-host loop body of switch_on (simulator.py lines 411-417):
fetch the host, apply the switch-on transition, queue a power-state
request towards the default power state. -/
def switchOnAux (s : SimState) : List Nat → Act
  | [] => .ok s
  | hid :: rest =>
    match s.getPlatformHost hid with
    | .error e => .error (e, s)
    | .ok host =>
      match host.hSwitchOn with
      | .error e => .error (e, s)
      | .ok host' =>
        switchOnAux ((s.setHost host').setBatsimHostPstate host'.id host'.defaultPStateId) rest

/-- switch_on (simulator.py lines 393-417). -/
def SimState.switchOn (s : SimState) (hostsId : List Nat) : Act :=
  if ¬ s.running then .error (.runtimeError, s)
  else if s.platform = none then .error (.systemError, s)
  else switchOnAux s hostsId

/-- The per-host loop body of switch_off (simulator.py lines 437-443):
fetch the host, apply the switch-off transition, queue a power-state
request towards the sleep power state. -/
def switchOffAux (s : SimState) : List Nat → Act
  | [] => .ok s
  | hid :: rest =>
    match s.getPlatformHost hid with
    | .error e => .error (e, s)
    | .ok host =>
      match host.hSwitchOff with
      | .error e => .error (e, s)
      | .ok host' =>
        switchOffAux ((s.setHost host').setBatsimHostPstate host'.id host'.sleepPStateId) rest

/-- switch_off (simulator.py lines 419-443). -/
def SimState.switchOff (s : SimState) (hostsId : List Nat) : Act :=
  if ¬ s.running then .error (.runtimeError, s)
  else if s.platform = none then .error (.systemError, s)
  else switchOffAux s hostsId

/-- switch_power_state (simulator.py lines 445-472). -/
def SimState.switchPowerState (s : SimState) (hostId pstateId : Nat) : Act :=
  if ¬ s.running then .error (.runtimeError, s)
  else if s.platform = none then .error (.systemError, s)
  else
    match s.getPlatformHost hostId with
    | .error e => .error (e, s)
    | .ok host =>
      match host.hSetComputationPstate pstateId with
      | .error e => .error (e, s)
      | .ok host' =>
        .ok ((s.setHost host').setBatsimHostPstate host'.id host'.pstateId)

/-- kill_job (simulator.py lines 335-359): remove the job from the
registry and queue the kill request. -/
def SimState.killJob (s : SimState) (jobId : String) : Act :=
  if ¬ s.running then .error (.runtimeError, s)
  else
    match findJob s.jobs jobId with
    | none => .error (.lookupError, s)
    | some _ =>
      .ok { s with jobs := removeJob s.jobs jobId,
                   batsimRequests := s.batsimRequests ++ [.killJob s.currentTime jobId] }

/-- reject_job (simulator.py lines 361-391): only a queued job may be
rejected; remove it and queue the reject request. -/
def SimState.rejectJob (s : SimState) (jobId : String) : Act :=
  if ¬ s.running then .error (.runtimeError, s)
  else
    match findJob s.jobs jobId with
    | none => .error (.lookupError, s)
    | some job =>
      if ¬ job.isSubmitted then .error (.runtimeError, s)
      else
        .ok { s with jobs := removeJob s.jobs jobId,
                     batsimRequests := s.batsimRequests ++ [.rejectJob s.currentTime jobId] }

/-- set_callback (simulator.py lines 270-298): the target must be
strictly in the future of the current simulation time; append the
callback and queue a deduplicated call-me-later request. -/
def SimState.setCallback (s : SimState) (att : ℚ) (c : Callback) : Act :=
  if ¬ s.running then .error (.runtimeError, s)
  else if att ≤ s.currentTime then .error (.valueError, s)
  else
    .ok (SimState.setBatsimCallMeLater
      { s with callbacks := addCallback s.callbacks att c } att)

/-- The inner loop of __start_runnable_jobs over one job's allocation
(simulator.py lines 497-506): fetch each host, clear the ready flag on a
non-idle host, and switch on a sleeping host via the public switch_on. -/
def checkAllocLoop (s : SimState) (ready : Bool) :
    List Nat → Except (SimError × SimState) (SimState × Bool)
  | [] => .ok (s, ready)
  | hid :: rest =>
    match s.getPlatformHost hid with
    | .error e => .error (e, s)
    | .ok host =>
      let ready' := if ¬ host.isIdle then false else ready
      if host.isSleeping then
        match s.switchOn [host.id] with
        | .error es => .error es
        | .ok s' => checkAllocLoop s' ready' rest
      else checkAllocLoop s ready' rest

/-- The per-job loop of __start_runnable_jobs (simulator.py lines
491-514) over the captured list of runnable jobs: a job with no recorded
allocation is a fatal bookkeeping fault; a job whose hosts are all idle
is started and an execute request is queued. -/
def startRunnableAux (s : SimState) : List Job → Act
  | [] => .ok s
  | j :: rest =>
    if j.allocation = [] then .error (.systemError, s)
    else
      match checkAllocLoop s true j.allocation with
      | .error es => .error es
      | .ok (s', ready) =>
        if ready then
          match j.jStart s'.currentTime with
          | .error e => .error (e, s')
          | .ok j' =>
            startRunnableAux
              { s' with jobs := setJob s'.jobs j.id j',
                        batsimRequests := s'.batsimRequests ++
                          [.executeJob s'.currentTime j.id j.allocation] } rest
        else startRunnableAux s' rest

/-- __start_runnable_jobs (simulator.py lines 474-514). -/
def SimState.startRunnableJobs (s : SimState) : Act :=
  if ¬ s.running then .ok s
  else if s.platform = none then .error (.systemError, s)
  else startRunnableAux s (s.jobs.filter Job.isRunnable)

/-- The per-host loop body of allocate (simulator.py lines 326-328). -/
def allocateHostsLoop (s : SimState) (jobId : String) : List Nat → Act
  | [] => .ok s
  | hid :: rest =>
    match s.getPlatformHost hid with
    | .error e => .error (e, s)
    | .ok host => allocateHostsLoop (s.setHost (host.hAllocate jobId)) jobId rest

/-- allocate (simulator.py lines 300-333): bind the hosts to the job,
record the allocation, then attempt to start runnable jobs. -/
def SimState.allocate (s : SimState) (jobId : String) (hostsId : List Nat) : Act :=
  if ¬ s.running then .error (.runtimeError, s)
  else if s.platform = none then .error (.systemError, s)
  else
    match findJob s.jobs jobId with
    | none => .error (.lookupError, s)
    | some job =>
      match allocateHostsLoop s jobId hostsId with
      | .error es => .error es
      | .ok s' =>
        match job.jAllocate hostsId with
        | .error e => .error (e, s')
        | .ok j' =>
          SimState.startRunnableJobs { s' with jobs := setJob s'.jobs job.id j' }

/-- The three per-host transition rules of __on_batsim_host_state_changed
(simulator.py lines 605-610): a switching-off host becomes sleeping, a
switching-on host becomes idle at the default power state, an idle or
computing host whose mirrored power-state id differs takes the reported
one. -/
def hostStateRules (h : Host) (ps : Nat) : Except SimError Host :=
  if h.isSwitchingOff then .ok h.hSetOff
  else if h.isSwitchingOn then .ok h.hSetOn
  else if (h.isIdle || h.isComputing) && h.pstateId != ps then
    h.hSetComputationPstate ps
  else .ok h

/-- The per-host loop of __on_batsim_host_state_changed (simulator.py
lines 601-615): apply the transition rules, write the host back, then
check the mirrored power-state id against the engine-reported one and
raise a fatal consistency fault on mismatch. -/
def hostStateChangedLoop (s : SimState) (ps : Nat) : List Nat → Act
  | [] => .ok s
  | hid :: rest =>
    match s.getPlatformHost hid with
    | .error e => .error (e, s)
    | .ok h =>
      match hostStateRules h ps with
      | .error e => .error (e, s)
      | .ok h' =>
        let s' := s.setHost h'
        if h'.pstateId ≠ ps then .error (.systemError, s')
        else hostStateChangedLoop s' ps rest

/-- __on_batsim_host_state_changed (simulator.py lines 591-617). -/
def SimState.onBatsimHostStateChanged (s : SimState) (resources : List Nat) (ps : Nat) : Act :=
  if s.platform = none then .error (.systemError, s)
  else
    match hostStateChangedLoop s ps resources with
    | .error es => .error es
    | .ok s' => s'.startRunnableJobs

/-- Invocation of one callback with the current time as argument: every
invocation is recorded in the log; the internal unflag callback of
proceed_time additionally clears the wait flag. -/
def invokeCallback (s : SimState) (c : Callback) (t : ℚ) : SimState :=
  let s' := { s with invoked := s.invoked ++ [(c, t)] }
  match c with
  | .unflag => { s' with waitCallback := false }
  | .user _ => s'

/-- __on_batsim_requested_call (simulator.py lines 619-624): invoke every
callback registered for exactly the current time, in order, then remove
the entry. -/
def SimState.onBatsimRequestedCall (s : SimState) : Act :=
  match lookupCallbacks s.callbacks s.currentTime with
  | none => .ok s
  | some cbs =>
    let s' := cbs.foldl (fun acc c => invokeCallback acc c s.currentTime) s
    .ok { s' with callbacks := eraseCallbacks s'.callbacks s.currentTime }

/-- __on_batsim_job_submitted (simulator.py lines 626-629). -/
def SimState.onBatsimJobSubmitted (s : SimState) (job : Job) : Act :=
  .ok { s with jobs := s.jobs ++ [job.jSubmit s.currentTime] }

/-- __on_batsim_job_completed (simulator.py lines 631-640): terminate the
job, remove it, then attempt to start runnable jobs. -/
def SimState.onBatsimJobCompleted (s : SimState) (jobId : String) (finalState : JobState) : Act :=
  match findJob s.jobs jobId with
  | none => .error (.systemError, s)
  | some job =>
    match job.jTerminate s.currentTime finalState with
    | .error e => .error (e, s)
    | .ok _ =>
      SimState.startRunnableJobs { s with jobs := removeJob s.jobs jobId }

/-- __on_batsim_simulation_ends (simulator.py lines 583-589): acknowledge
with an empty message, then close. -/
def SimState.onBatsimSimulationEnds (s : SimState) : Act :=
  let s' := if s.running then { s with sent := s.sent ++ [⟨s.currentTime, []⟩] } else s
  .ok s'.close

/-- Dispatch of one engine event to its handler (simulator.py lines
76-84 and 566-570). -/
def dispatchEvent (s : SimState) : BatsimEvent → Act
  | .simulationBegins _ p => .ok { s with platform := some p }
  | .simulationEnds _ => s.onBatsimSimulationEnds
  | .jobSubmitted _ job => s.onBatsimJobSubmitted job
  | .jobCompleted _ jid fs => s.onBatsimJobCompleted jid fs
  | .resourceStateChanged _ rs ps => s.onBatsimHostStateChanged rs ps
  | .requestedCall _ => s.onBatsimRequestedCall
  | .noMoreJobsToSubmit _ => .ok { s with noMoreJobsToSubmit := true }

/-- The event loop of __handle_batsim_events (simulator.py lines
566-570): set the internal time to each event's timestamp, then dispatch
it. -/
def handleEventsLoop (s : SimState) : List BatsimEvent → Act
  | [] => .ok s
  | e :: rest =>
    match dispatchEvent { s with rawTime := e.timestamp } e with
    | .error es => .error es
    | .ok s' => handleEventsLoop s' rest

/-- __handle_batsim_events (simulator.py lines 563-572): receive the next
message (blocking when the engine will never answer), dispatch its events
in order, then set the internal time to the envelope's own timestamp. -/
def SimState.handleBatsimEvents (s : SimState) : Outcome :=
  match s.inbox with
  | [] => .blocked s
  | msg :: rest =>
    match handleEventsLoop { s with inbox := rest } msg.events with
    | .error (e, s') => .err e s'
    | .ok s' => .ok { s' with rawTime := msg.now }

/-- __goto_next_batsim_event (simulator.py lines 516-521): flush the
request batch, receive and dispatch events, and close when the simulation
time limit has been reached. -/
def SimState.gotoNextBatsimEvent (s : SimState) : Outcome :=
  match s.sendRequests.handleBatsimEvents with
  | .ok s' =>
    .ok (if truthyOpt s'.simulationTime ∧ s'.simulationTime.getD 0 ≤ s'.currentTime
         then s'.close else s')
  | o => o

/-- The while loop of proceed_time (simulator.py lines 266-268), with
explicit fuel; exhausted fuel is reported as a blocked outcome. -/
def proceedLoop : Nat → SimState → Outcome
  | 0, s => .blocked s
  | fuel + 1, s =>
    if s.running ∧ s.waitCallback then
      match s.gotoNextBatsimEvent with
      | .ok s' =>
        match s'.startRunnableJobs with
        | .ok s'' => proceedLoop fuel s''
        | .error (e, s'') => .err e s''
      | o => o
    else .ok s

/-- proceed_time (simulator.py lines 222-268).  The time argument is
subject to Python truthiness: None and 0 select the advance-to-next-event
mode; a truthy non-positive value is a usage error; otherwise, unless no
time limit is set, the submitter has finished and no jobs remain, an
internal unflag callback is registered at current_time plus the given
offset, and the loop steps until the flag is cleared. -/
def SimState.proceedTime (fuel : Nat) (s : SimState) (time : Option ℚ) : Outcome :=
  if ¬ s.running then .err .runtimeError s
  else if truthyOpt time ∧ time.getD 0 ≤ 0 then .err .valueError s
  else
    let setup : Act :=
      if ¬ truthyOpt time then .ok { s with waitCallback := false }
      else if ¬ truthyOpt s.simulationTime ∧ s.noMoreJobsToSubmit ∧ s.jobs = [] then
        .ok { s with waitCallback := false }
      else
        SimState.setCallback { s with waitCallback := true }
          (qadd (time.getD 0) s.currentTime) .unflag
    match setup with
    | .error (e, s') => .err e s'
    | .ok s₁ =>
      match s₁.gotoNextBatsimEvent with
      | .ok s₂ =>
        match s₂.startRunnableJobs with
        | .ok s₃ => proceedLoop fuel s₃
        | .error (e, s₃) => .err e s₃
      | o => o

/-- start (simulator.py lines 133-205): fail when already running; reset
the job registry, current time, time-limit and submitter-finished flag;
launch the engine and consume the handshake events; fail when the
platform mirror is empty afterwards; schedule the time-limit timer when a
truthy limit was given. -/
def SimState.start (s : SimState) (simulationTime : Option ℚ) : Outcome :=
  if s.running then .err .runtimeError s
  else
    let s₀ := { s with jobs := [], rawTime := 0, simulationTime := simulationTime,
                       noMoreJobsToSubmit := false, running := true }
    match s₀.handleBatsimEvents with
    | .ok s' =>
      if s'.platform = none then .err .runtimeError s'
      else if truthyOpt s'.simulationTime then
        .ok (s'.setBatsimCallMeLater (s'.simulationTime.getD 0))
      else .ok s'
    | o => o

/-- Whether an operation ended up blocked on the network receive. -/
def Outcome.isBlocked : Outcome → Bool
  | .blocked _ => true
  | _ => false

/-- Monotone evolution of the platform mirror and of the pending requests
during one pass of __start_runnable_jobs: requests are never dropped, and
each host is either untouched or was sleeping and is now switching on
with a power-state request towards its default power state pending. -/
def PassMono (s s' : SimState) : Prop :=
  (∀ hid ps, pstateRequested s hid ps → pstateRequested s' hid ps) ∧
  (∀ hid, hostInfo s' hid = hostInfo s hid ∨
     ∃ h, hostInfo s hid = some h ∧ h.state = .sleeping ∧
       hostInfo s' hid = some { h with state := .switchingOn } ∧
       pstateRequested s' hid h.defaultPStateId)

/-- An idle example host. -/
def exHostIdle : Host := ⟨0, .idle, 1, 1, 0, [1, 2], []⟩

/-- A computing example host. -/
def exHostComputing : Host := ⟨1, .computing, 1, 1, 0, [1, 2], []⟩

/-- A sleeping example host, with default power state 1. -/
def exHostSleeping : Host := ⟨2, .sleeping, 0, 1, 0, [1, 2], []⟩

/-- A switching-off example host whose sleep power state has id 9. -/
def exHostOff : Host := ⟨0, .switchingOff, 1, 1, 9, [1, 2], []⟩

/-- A running example state at raw time 10 with three hosts and an empty
inbox. -/
def exBase : SimState :=
  { rawTime := 10, running := true, simulationTime := some 100,
    platform := some [exHostIdle, exHostComputing, exHostSleeping],
    noMoreJobsToSubmit := false, batsimRequests := [], jobs := [],
    callbacks := [], waitCallback := false, inbox := [], sent := [], invoked := [] }

/-- A running example state with nothing outstanding: submitter finished,
no jobs, no time limit, no pending timer, and an engine that will never
answer (empty inbox). -/
def exDead : SimState :=
  { exBase with simulationTime := none, noMoreJobsToSubmit := true }

/-- An example job that is already running. -/
def exJobRunning : Job := ⟨"r", .running, [0], 0, some 1, none⟩

/-- A running example state holding one running job. -/
def exRejectState : SimState := { exBase with jobs := [exJobRunning] }

/-- A stopped example state carrying leftovers of a previous run: a loaded
platform, a pending request, a callback entry, and a handshake message
with no events. -/
def exStale : SimState :=
  { exBase with
    running := false,
    callbacks := [(3, [.user 7])],
    batsimRequests := [.killJob 1 "old"],
    inbox := [⟨0, []⟩] }

/-- A stopped example state with no platform whose handshake message
carries a simulation-begins event. -/
def exFresh : SimState :=
  { exStale with
    platform := none,
    inbox := [⟨0, [.simulationBegins 0 [exHostIdle]]⟩] }

/-- A stopped example state with no platform and an eventless handshake. -/
def exFreshEmpty : SimState := { exStale with platform := none }

/-- An example state whose only host is switching off. -/
def exOffState : SimState := { exBase with platform := some [exHostOff] }

/-- An example state with one pending non-power-state request. -/
def exReqState : SimState := { exBase with batsimRequests := [.killJob 10 "x"] }

/-- An example state with two callbacks at time 10 and one at time 11. -/
def exCbState : SimState :=
  { exBase with callbacks := [(10, [.user 1, .user 2]), (11, [.user 3])] }

/-- An example job allocated on the idle host 0. -/
def exJobAlloc : Job := ⟨"a", .allocated, [0], 0, none, none⟩

/-- A running example state at raw time 7.26 with one runnable job on the
idle host. -/
def exStartState : SimState :=
  { exBase with rawTime := 726 / 100, jobs := [exJobAlloc] }

/-- An example job allocated on the sleeping host 2. -/
def exJobSleepAlloc : Job := ⟨"b", .allocated, [2], 0, none, none⟩

/-- A running example state with one runnable job on the sleeping host. -/
def exSleepState : SimState := { exBase with jobs := [exJobSleepAlloc] }

/-- The kernel-computable qadd is ordinary rational addition. -/
theorem qadd_eq (a b : ℚ) : qadd a b = a + b := by
  have hda : ((a.den : ℚ)) ≠ 0 := Nat.cast_ne_zero.mpr a.den_nz
  have hdb : ((b.den : ℚ)) ≠ 0 := Nat.cast_ne_zero.mpr b.den_nz
  have keya : (a.num : ℚ) = a * (a.den : ℚ) := (div_eq_iff hda).mp (Rat.num_div_den a)
  have keyb : (b.num : ℚ) = b * (b.den : ℚ) := (div_eq_iff hdb).mp (Rat.num_div_den b)
  rw [qadd, Rat.mkRat_eq_div, div_eq_iff (by push_cast; exact mul_ne_zero hda hdb)]
  push_cast
  rw [keya, keyb]
  ring

/-- The kernel-computable roundTenth is the standard rounding to one
decimal place. -/
theorem roundTenth_eq (q : ℚ) : roundTenth q = (round (10 * q) : ℤ) / 10 := by
  have hden : ((q.den : ℚ)) ≠ 0 := Nat.cast_ne_zero.mpr q.den_nz
  have key : (q.num : ℚ) = q * (q.den : ℚ) := (div_eq_iff hden).mp (Rat.num_div_den q)
  have h2d : (((2 * q.den : ℕ) : ℚ)) ≠ 0 := by
    push_cast
    exact mul_ne_zero two_ne_zero hden
  have h1 : (10 : ℚ) * q + 1 / 2
      = ((20 * q.num + (q.den : ℤ) : ℤ) : ℚ) / ((2 * q.den : ℕ) : ℚ) := by
    rw [eq_div_iff h2d]
    push_cast
    rw [key]
    ring
  rw [roundTenth, Rat.mkRat_eq_div, round_eq, h1, Rat.floor_intCast_div_natCast]
  congr 2

/-- Claim C4, counterexample: with the simulation running at current time
10, proceed_time with argument 5 (which is not greater than the current
time) does not fail with a usage error: it interprets 5 as a relative
offset, flushes a request batch (transport traffic) and blocks waiting
for the engine. -/
theorem claim4_counterexample :
    ((5 : ℚ) ≤ exBase.currentTime) ∧
    (SimState.proceedTime 1 exBase (some 5)).errOf = none ∧
    ((SimState.proceedTime 1 exBase (some 5)).state).sent.length = 1 := by
  decide

/-- Claim C4 (amended): proceed_time with a given time argument fails with
a ValueError and leaves the state unchanged (hence produces no transport
traffic) when the argument is negative; the argument is a relative offset
added to the current time, and zero is treated as the omitted form. -/
theorem claim4_amended (s : SimState) (t : ℚ) (fuel : Nat)
    (hrun : s.running = true) (ht : t < 0) :
    SimState.proceedTime fuel s (some t) = .err .valueError s ∧
    ((SimState.proceedTime fuel s (some t)).state).sent = s.sent := by
  have ht0 : (t != 0) = true := by simp [bne_iff_ne]; exact ne_of_lt ht
  have heq : SimState.proceedTime fuel s (some t) = .err .valueError s := by
    unfold SimState.proceedTime
    rw [if_neg (by simp [hrun]), if_pos ⟨by simp [truthyOpt, ht0], by simpa using le_of_lt ht⟩]
  exact ⟨heq, by simp [heq, Outcome.state]⟩

/-- Claim C4 witness: the amended statement applied to the concrete
running state and offset -3. -/
theorem claim4_amended_witness :
    SimState.proceedTime 1 exBase (some (-3)) = .err .valueError exBase ∧
    ((SimState.proceedTime 1 exBase (some (-3))).state).sent = exBase.sent :=
  claim4_amended exBase (-3) 1 rfl (by norm_num)

/-- Claim C5: in a state where no event-producing activity is outstanding
and no timer is pending, proceed_time to the next event raises no error
at all; it flushes the (empty) request batch and blocks forever in the
network receive, even though its own docstring promises a RuntimeError
for this deadlock. -/
theorem claim5_deadlock_blocks_without_error :
    (SimState.proceedTime 5 exDead none).errOf = none ∧
    (SimState.proceedTime 5 exDead none).isBlocked = true ∧
    ((SimState.proceedTime 5 exDead none).state).sent.length = 1 := by
  decide

/-- A host record found through hostInfo can be fetched with
getPlatformHost. -/
theorem getPlatformHost_of_hostInfo (s : SimState) (hid : Nat) (h : Host)
    (hh : hostInfo s hid = some h) : s.getPlatformHost hid = .ok h := by
  unfold hostInfo at hh
  unfold SimState.getPlatformHost
  cases hp : s.platform with
  | none => rw [hp] at hh; cases hh
  | some p => rw [hp] at hh; simp only at hh; simp [getHost, hh]

/-- A host record found through hostInfo implies the platform is loaded. -/
theorem platform_of_hostInfo (s : SimState) (hid : Nat) (h : Host)
    (hh : hostInfo s hid = some h) : ∃ p, s.platform = some p := by
  unfold hostInfo at hh
  cases hp : s.platform with
  | none => rw [hp] at hh; cases hh
  | some p => exact ⟨p, rfl⟩

/-- The host found for an id indeed carries that id. -/
theorem hostInfo_id (s : SimState) (hid : Nat) (h : Host)
    (hh : hostInfo s hid = some h) : h.id = hid := by
  unfold hostInfo at hh
  cases hp : s.platform with
  | none => rw [hp] at hh; cases hh
  | some p =>
    rw [hp] at hh
    simp only at hh
    have := List.find?_some hh
    simpa using this

/-- Queueing a call-me-later request changes only the request batch. -/
theorem setBatsimCallMeLater_frame (s : SimState) (a : ℚ) :
    (s.setBatsimCallMeLater a).platform = s.platform ∧
    (s.setBatsimCallMeLater a).jobs = s.jobs ∧
    (s.setBatsimCallMeLater a).rawTime = s.rawTime ∧
    (s.setBatsimCallMeLater a).simulationTime = s.simulationTime ∧
    (s.setBatsimCallMeLater a).noMoreJobsToSubmit = s.noMoreJobsToSubmit ∧
    (s.setBatsimCallMeLater a).callbacks = s.callbacks := by
  unfold SimState.setBatsimCallMeLater
  split
  · simp
  · split <;> simp

/-- Claim C7, counterexample: with host 0 idle and host 1 computing,
switch_off over the sequence of both hosts raises the illegal-transition
error for host 1 but has already mutated host 0 to switching-off and
queued a set-resource-state request: the error does not leave the handler
state unchanged. -/
theorem claim7_counterexample :
    (exBase.switchOff [0, 1]).errOf = some .runtimeError ∧
    hostActivity ((exBase.switchOff [0, 1]).state) 0 = some .switchingOff ∧
    ((exBase.switchOff [0, 1]).state).batsimRequests.length = 1 := by
  decide

/-- Claim C7 (amended): illegal transitions are surfaced immediately.
Rejecting a job that is not still queued leaves the state entirely
unchanged.  For switch_off and switch_on over a sequence of hosts the
hosts are validated one at a time: when the first host of the sequence
fails its activity-state precondition no mutation occurs at all, but when
a later host fails, hosts processed earlier retain their transitions and
queued requests (no rollback, as the counterexample shows). -/
theorem claim7_amended :
    (∀ (s : SimState) (jid : String) (j : Job),
        s.running = true → findJob s.jobs jid = some j → j.isSubmitted = false →
        s.rejectJob jid = .error (.runtimeError, s)) ∧
    (∀ (s : SimState) (hid : Nat) (rest : List Nat) (h : Host),
        s.running = true → hostInfo s hid = some h → h.state ≠ .idle →
        s.switchOff (hid :: rest) = .error (.runtimeError, s)) ∧
    (∀ (s : SimState) (hid : Nat) (rest : List Nat) (h : Host),
        s.running = true → hostInfo s hid = some h → h.state ≠ .sleeping →
        s.switchOn (hid :: rest) = .error (.runtimeError, s)) := by
  refine ⟨?_, ?_, ?_⟩
  · intro s jid j hrun hfind hsub
    simp [SimState.rejectJob, hrun, hfind, hsub]
  · intro s hid rest h hrun hinfo hstate
    obtain ⟨p, hp⟩ := platform_of_hostInfo s hid h hinfo
    have hget := getPlatformHost_of_hostInfo s hid h hinfo
    simp [SimState.switchOff, hrun, hp, switchOffAux, hget, Host.hSwitchOff, hstate]
  · intro s hid rest h hrun hinfo hstate
    obtain ⟨p, hp⟩ := platform_of_hostInfo s hid h hinfo
    have hget := getPlatformHost_of_hostInfo s hid h hinfo
    simp [SimState.switchOn, hrun, hp, switchOnAux, hget, Host.hSwitchOn, hstate]

/-- Claim C7 witness: the amended statement applied to a running job being
rejected, to switch_off starting at the computing host, and to switch_on
on the idle host. -/
theorem claim7_amended_witness :
    exRejectState.rejectJob "r" = .error (.runtimeError, exRejectState) ∧
    exBase.switchOff [1, 0] = .error (.runtimeError, exBase) ∧
    exBase.switchOn [0] = .error (.runtimeError, exBase) :=
  ⟨claim7_amended.1 exRejectState "r" exJobRunning rfl rfl rfl,
   claim7_amended.2.1 exBase 1 [0] exHostComputing rfl rfl (by decide),
   claim7_amended.2.2 exBase 0 [] exHostIdle rfl rfl (by decide)⟩

/-- Claim C8, counterexample: starting from a stopped state that still
carries a platform mirror, a pending request and a callback entry from a
previous run, start succeeds even though the handshake message carries
no platform, and the stale platform mirror, the pending request and the
callback table all survive: start does not reset them. -/
theorem claim8_counterexample :
    (exStale.start (some 50)).errOf = none ∧
    ((exStale.start (some 50)).state).callbacks = [(3, [.user 7])] ∧
    ((exStale.start (some 50)).state).platform
      = some [exHostIdle, exHostComputing, exHostSleeping] ∧
    ((exStale.start (some 50)).state).batsimRequests.length = 2 := by
  decide

/-- Claim C8 (amended): start fails when the simulation is already
running; otherwise it resets the job registry, the current time and the
submitter-finished flag and installs the new time limit, but does not
clear the platform mirror, the pending requests or the callback table
(close is the operation that clears requests and callbacks, and the
platform mirror is only overwritten by a simulation-begins event); the
platform-load failure is only raised when the platform mirror is empty
after the handshake. -/
theorem claim8_amended :
    (∀ (s : SimState) (st : Option ℚ), s.running = true →
        s.start st = .err .runtimeError s) ∧
    (∀ (s : SimState) (st : Option ℚ) (now ts : ℚ) (P : List Host)
        (rest : List BatsimMessage),
        s.running = false →
        s.inbox = ⟨now, [.simulationBegins ts P]⟩ :: rest →
        (s.start st).errOf = none ∧
        ((s.start st).state).platform = some P ∧
        ((s.start st).state).jobs = [] ∧
        ((s.start st).state).rawTime = now ∧
        ((s.start st).state).simulationTime = st ∧
        ((s.start st).state).noMoreJobsToSubmit = false ∧
        ((s.start st).state).callbacks = s.callbacks ∧
        (st = none → ((s.start st).state).batsimRequests = s.batsimRequests)) ∧
    (∀ (s : SimState) (st : Option ℚ) (now : ℚ) (rest : List BatsimMessage),
        s.running = false → s.platform = none →
        s.inbox = ⟨now, []⟩ :: rest →
        (s.start st).errOf = some .runtimeError ∧
        ((s.start st).state).platform = none) := by
  refine ⟨?_, ?_, ?_⟩
  · intro s st hrun
    simp [SimState.start, hrun]
  · intro s st now ts P rest hrun hinbox
    have hmain : s.start st =
        if truthyOpt st then
          .ok (SimState.setBatsimCallMeLater
            { s with jobs := [], rawTime := now, simulationTime := st,
                     noMoreJobsToSubmit := false, running := true,
                     inbox := rest, platform := some P } (st.getD 0))
        else
          .ok { s with jobs := [], rawTime := now, simulationTime := st,
                       noMoreJobsToSubmit := false, running := true,
                       inbox := rest, platform := some P } := by
      simp [SimState.start, hrun, SimState.handleBatsimEvents, hinbox,
        handleEventsLoop, dispatchEvent, BatsimEvent.timestamp]
    by_cases hst : truthyOpt st = true
    · rw [hmain, if_pos hst]
      have hf := setBatsimCallMeLater_frame
        { s with jobs := [], rawTime := now, simulationTime := st,
                 noMoreJobsToSubmit := false, running := true,
                 inbox := rest, platform := some P } (st.getD 0)
      refine ⟨rfl, ?_, ?_, ?_, ?_, ?_, ?_, ?_⟩
      · rw [Outcome.state, hf.1]
      · rw [Outcome.state, hf.2.1]
      · rw [Outcome.state, hf.2.2.1]
      · rw [Outcome.state, hf.2.2.2.1]
      · rw [Outcome.state, hf.2.2.2.2.1]
      · rw [Outcome.state, hf.2.2.2.2.2]
      · intro hnone; rw [hnone] at hst; simp [truthyOpt] at hst
    · rw [hmain, if_neg hst]
      exact ⟨rfl, rfl, rfl, rfl, rfl, rfl, rfl, fun _ => rfl⟩
  · intro s st now rest hrun hplat hinbox
    simp [SimState.start, hrun, SimState.handleBatsimEvents, hinbox,
      handleEventsLoop, hplat, Outcome.errOf, Outcome.state]

/-- Claim C8 witness: the amended statement applied to the running base
state, to the stale stopped state receiving a simulation-begins
handshake, and to a platformless state with an eventless handshake. -/
theorem claim8_amended_witness :
    exBase.start none = .err .runtimeError exBase ∧
    ((exFresh.start none).state).platform = some [exHostIdle] ∧
    ((exFresh.start none).state).callbacks = exFresh.callbacks ∧
    (exFreshEmpty.start none).errOf = some .runtimeError :=
  ⟨claim8_amended.1 exBase none rfl,
   (claim8_amended.2.1 exFresh none 0 0 [exHostIdle] [] rfl rfl).2.1,
   (claim8_amended.2.1 exFresh none 0 0 [exHostIdle] [] rfl rfl).2.2.2.2.2.2.1,
   (claim8_amended.2.2 exFreshEmpty none 0 [] rfl rfl rfl).1⟩

/-- Invoking one callback appends exactly one entry to the log. -/
theorem invokeCallback_invoked (s : SimState) (c : Callback) (t : ℚ) :
    (invokeCallback s c t).invoked = s.invoked ++ [(c, t)] := by
  cases c <;> rfl

/-- Invoking a callback does not touch the callback table. -/
theorem invokeCallback_callbacks (s : SimState) (c : Callback) (t : ℚ) :
    (invokeCallback s c t).callbacks = s.callbacks := by
  cases c <;> rfl

/-- Invoking a list of callbacks appends one log entry per callback, in
order, each carrying the given time. -/
theorem foldInvoke_invoked (t : ℚ) (cbs : List Callback) :
    ∀ s : SimState,
      (cbs.foldl (fun acc c => invokeCallback acc c t) s).invoked
        = s.invoked ++ cbs.map (fun c => (c, t)) := by
  induction cbs with
  | nil => intro s; simp
  | cons c cs ih =>
    intro s
    simp only [List.foldl_cons, List.map_cons]
    rw [ih, invokeCallback_invoked]
    simp

/-- Invoking a list of callbacks does not touch the callback table. -/
theorem foldInvoke_callbacks (t : ℚ) (cbs : List Callback) :
    ∀ s : SimState,
      (cbs.foldl (fun acc c => invokeCallback acc c t) s).callbacks = s.callbacks := by
  induction cbs with
  | nil => intro _; rfl
  | cons c cs ih => intro s; rw [List.foldl_cons, ih, invokeCallback_callbacks]

/-- After erasing a time from the callback table, it has no entry there. -/
theorem lookup_erase_self (l : List (ℚ × List Callback)) (t : ℚ) :
    lookupCallbacks (eraseCallbacks l t) t = none := by
  induction l with
  | nil => rfl
  | cons p rest ih =>
    obtain ⟨u, cs⟩ := p
    by_cases h : u = t
    · simp [eraseCallbacks, h, ih]
    · simp [eraseCallbacks, lookupCallbacks, h, ih]

/-- Erasing a time from the callback table leaves other entries alone. -/
theorem lookup_erase_other (l : List (ℚ × List Callback)) (t v : ℚ) (hne : v ≠ t) :
    lookupCallbacks (eraseCallbacks l t) v = lookupCallbacks l v := by
  induction l with
  | nil => rfl
  | cons p rest ih =>
    obtain ⟨u, cs⟩ := p
    by_cases h : u = t
    · subst h
      simp [eraseCallbacks, lookupCallbacks, Ne.symm hne, ih]
    · by_cases h2 : u = v
      · subst h2
        simp [eraseCallbacks, lookupCallbacks, h]
      · simp [eraseCallbacks, lookupCallbacks, h, h2, ih]

/-- Claim C6: when the timer-fired event is handled at the current
simulation time, the invocation log is extended by exactly the callbacks
registered for that time, in registration order, each invoked once with
the current time as argument; the entry for that time is removed, and
entries registered for any other time are untouched. -/
theorem claim6_requested_call_fires_exactly (s : SimState) :
    ((s.onBatsimRequestedCall).state).invoked
      = s.invoked ++ (callbacksAt s s.currentTime).map (fun c => (c, s.currentTime)) ∧
    lookupCallbacks ((s.onBatsimRequestedCall).state).callbacks s.currentTime = none ∧
    (∀ t, t ≠ s.currentTime →
      lookupCallbacks ((s.onBatsimRequestedCall).state).callbacks t
        = lookupCallbacks s.callbacks t) := by
  unfold SimState.onBatsimRequestedCall
  cases hcb : lookupCallbacks s.callbacks s.currentTime with
  | none =>
    refine ⟨by simp [Act.state, callbacksAt, hcb], by simp [Act.state, hcb], ?_⟩
    intro t _
    simp [Act.state]
  | some cbs =>
    refine ⟨?_, ?_, ?_⟩
    · simp only [Act.state, callbacksAt, hcb, Option.getD_some]
      exact foldInvoke_invoked _ _ _
    · simp only [Act.state]
      rw [foldInvoke_callbacks]
      exact lookup_erase_self _ _
    · intro t ht
      simp only [Act.state]
      rw [foldInvoke_callbacks]
      exact lookup_erase_other _ _ _ ht

/-- Claim C6 witness: the theorem applied to the state with two callbacks
at time 10 and one at time 11, the current time being 10. -/
theorem claim6_witness :
    ((exCbState.onBatsimRequestedCall).state).invoked
      = exCbState.invoked ++ (callbacksAt exCbState exCbState.currentTime).map
          (fun c => (c, exCbState.currentTime)) ∧
    lookupCallbacks ((exCbState.onBatsimRequestedCall).state).callbacks (11 : ℚ)
      = lookupCallbacks exCbState.callbacks 11 :=
  ⟨(claim6_requested_call_fires_exactly exCbState).1,
   (claim6_requested_call_fires_exactly exCbState).2.2 11 (by decide)⟩

/-- A request passing the coalescing match is a set-resource-state
request at that timestamp and destination power state. -/
theorem matchesPstateRequest_true (t : ℚ) (ps : Nat) (r : BatsimRequest)
    (h : matchesPstateRequest t ps r = true) :
    ∃ res, r = .setResourceState t res ps := by
  cases r with
  | setResourceState u res v =>
    simp only [matchesPstateRequest, Bool.and_eq_true, beq_iff_eq] at h
    exact ⟨res, by rw [h.1, h.2]⟩
  | callMeLater u a => simp [matchesPstateRequest] at h
  | killJob u j => simp [matchesPstateRequest] at h
  | rejectJob u j => simp [matchesPstateRequest] at h
  | executeJob u j a => simp [matchesPstateRequest] at h

/-- When no pending request matches, coalescing appends a fresh request
carrying just the new host at the end of the batch. -/
theorem coalesce_of_no_match (t : ℚ) (ps hid : Nat) :
    ∀ rs : List BatsimRequest, (∀ r ∈ rs, matchesPstateRequest t ps r = false) →
    coalescePstate t ps hid rs = rs ++ [.setResourceState t [hid] ps] := by
  intro rs
  induction rs with
  | nil => intro _; rfl
  | cons r rest ih =>
    intro h
    have hr := h r (by simp)
    simp only [coalescePstate, hr, Bool.false_eq_true, if_false, List.cons_append,
      List.cons.injEq, true_and]
    exact ih (fun x hx => h x (by simp [hx]))

/-- The freshly created request matches its own key. -/
theorem matches_self (t : ℚ) (ps hid : Nat) :
    matchesPstateRequest t ps (.setResourceState t [hid] ps) = true := by
  simp [matchesPstateRequest]

/-- Coalescing one more host into a batch whose only matching request
carries the host set res leaves a single matching request carrying
res ++ [hid]. -/
theorem filter_coalesce_single (t : ℚ) (ps hid : Nat) :
    ∀ (rs : List BatsimRequest) (res : List Nat),
    rs.filter (matchesPstateRequest t ps) = [.setResourceState t res ps] →
    (coalescePstate t ps hid rs).filter (matchesPstateRequest t ps)
      = [.setResourceState t (res ++ [hid]) ps] := by
  intro rs
  induction rs with
  | nil => intro res h; simp at h
  | cons r rest ih =>
    intro res h
    by_cases hm : matchesPstateRequest t ps r = true
    · rw [List.filter_cons_of_pos hm] at h
      rw [List.cons_eq_cons] at h
      obtain ⟨h1, h2⟩ := h
      subst h1
      simp only [coalescePstate, hm, if_true, BatsimRequest.addResource]
      rw [List.filter_cons_of_pos (by simp [matchesPstateRequest]), h2]
    · rw [List.filter_cons_of_neg (by simp [hm])] at h
      simp only [coalescePstate, hm, Bool.false_eq_true, if_false]
      rw [List.filter_cons_of_neg (by simp [hm])]
      exact ih res h

/-- Folding a list of hosts through the coalescing step extends the
single matching request by exactly those hosts, in order. -/
theorem filter_fold_coalesce (t : ℚ) (ps : Nat) :
    ∀ (ids : List Nat) (rs : List BatsimRequest) (res : List Nat),
    rs.filter (matchesPstateRequest t ps) = [.setResourceState t res ps] →
    ((ids.foldl (fun l h => coalescePstate t ps h l) rs).filter (matchesPstateRequest t ps))
      = [.setResourceState t (res ++ ids) ps] := by
  intro ids
  induction ids with
  | nil => intro rs res h; simpa using h
  | cons i is ih =>
    intro rs res h
    simp only [List.foldl_cons]
    have h2 := ih (coalescePstate t ps i rs) (res ++ [i]) (filter_coalesce_single t ps i rs res h)
    simpa [List.append_assoc] using h2

/-- The state-level power-state fold only grows the request batch by the
request-list fold. -/
theorem fold_setBatsimHostPstate (ps : Nat) :
    ∀ (ids : List Nat) (s : SimState),
    (ids.foldl (fun st h => st.setBatsimHostPstate h ps) s)
      = { s with batsimRequests :=
            ids.foldl (fun l h => coalescePstate s.currentTime ps h l) s.batsimRequests } := by
  intro ids
  induction ids with
  | nil => intro s; rfl
  | cons i is ih =>
    intro s
    simp only [List.foldl_cons]
    rw [ih]
    rfl

/-- Claim C3: issuing any nonempty sequence of power-state-change actions
at the same instant with the same destination power state, starting from
a batch with no matching request, leaves exactly one set-resource-state
request for that instant and destination, whose host set is exactly the
targeted hosts. -/
theorem claim3_coalesced_single_request (s : SimState) (ps : Nat) (ids : List Nat)
    (hne : ids ≠ [])
    (hinit : ∀ r ∈ s.batsimRequests, matchesPstateRequest s.currentTime ps r = false) :
    ((ids.foldl (fun st h => st.setBatsimHostPstate h ps) s).batsimRequests).filter
        (matchesPstateRequest s.currentTime ps)
      = [.setResourceState s.currentTime ids ps] ∧
    (∀ r, r ∈ ((ids.foldl (fun st h => st.setBatsimHostPstate h ps) s).batsimRequests).filter
          (matchesPstateRequest s.currentTime ps) →
      ∀ hid, hid ∈ r.resources ↔ hid ∈ ids) := by
  obtain ⟨i, is, rfl⟩ : ∃ i is, ids = i :: is := by
    cases ids with
    | nil => exact absurd rfl hne
    | cons i is => exact ⟨i, is, rfl⟩
  have hnil : s.batsimRequests.filter (matchesPstateRequest s.currentTime ps) = [] := by
    rw [List.filter_eq_nil_iff]
    intro r hr
    simp [hinit r hr]
  have hfirst : (coalescePstate s.currentTime ps i s.batsimRequests).filter
      (matchesPstateRequest s.currentTime ps) = [.setResourceState s.currentTime [i] ps] := by
    rw [coalesce_of_no_match _ _ _ _ hinit, List.filter_append, hnil]
    simp [matches_self]
  have hmain := filter_fold_coalesce s.currentTime ps is
    (coalescePstate s.currentTime ps i s.batsimRequests) [i] hfirst
  have hfold : ((i :: is).foldl (fun st h => st.setBatsimHostPstate h ps) s).batsimRequests
      = (i :: is).foldl (fun l h => coalescePstate s.currentTime ps h l) s.batsimRequests := by
    rw [fold_setBatsimHostPstate]
  refine ⟨by rw [hfold]; simpa using hmain, ?_⟩
  intro r hr hid
  rw [hfold] at hr
  have hflt : List.filter (matchesPstateRequest s.currentTime ps)
      (List.foldl (fun l h => coalescePstate s.currentTime ps h l) s.batsimRequests (i :: is))
      = [BatsimRequest.setResourceState s.currentTime (i :: is) ps] := by
    simpa using hmain
  rw [hflt] at hr
  have hreq : r = BatsimRequest.setResourceState s.currentTime (i :: is) ps := by
    simpa using hr
  rw [hreq]
  simp [BatsimRequest.resources]

/-- Claim C3 witness: the theorem applied to three hosts coalesced at
destination power state 9 on top of a batch holding one kill request. -/
theorem claim3_witness :
    ((([0, 1, 2] : List Nat).foldl
        (fun st h => st.setBatsimHostPstate h 9) exReqState).batsimRequests).filter
        (matchesPstateRequest exReqState.currentTime 9)
      = [.setResourceState exReqState.currentTime [0, 1, 2] 9] :=
  (claim3_coalesced_single_request exReqState 9 [0, 1, 2] (by decide) (by decide)).1

/-- Replacing a host with a different id does not change what find?
returns for another id. -/
theorem find_updateHostL_other (h : Host) (hid : Nat) (hne : hid ≠ h.id) :
    ∀ p : List Host,
      (updateHostL p h).find? (fun x => x.id == hid) = p.find? (fun x => x.id == hid) := by
  intro p
  induction p with
  | nil => rfl
  | cons y ys ih =>
    by_cases hy : y.id = h.id
    · simp only [updateHostL, hy, if_true]
      have h1 : (h.id == hid) = false := by
        rw [beq_eq_false_iff_ne]
        exact fun he => hne he.symm
      have h2 : (y.id == hid) = false := by
        rw [beq_eq_false_iff_ne, hy]
        exact fun he => hne he.symm
      rw [List.find?_cons_of_neg _ (by simp [h1]), List.find?_cons_of_neg _ (by simp [h2])]
    · simp only [updateHostL, hy, if_false]
      by_cases h2 : y.id = hid
      · rw [List.find?_cons_of_pos _ (by simp [h2]), List.find?_cons_of_pos _ (by simp [h2])]
      · rw [List.find?_cons_of_neg _ (by simp [h2]), List.find?_cons_of_neg _ (by simp [h2]), ih]

/-- Replacing a host whose id is present makes find? return the
replacement. -/
theorem find_updateHostL_self (h : Host) :
    ∀ (p : List Host) (h₀ : Host),
      p.find? (fun x => x.id == h.id) = some h₀ →
      (updateHostL p h).find? (fun x => x.id == h.id) = some h := by
  intro p
  induction p with
  | nil => intro h₀ hf; cases hf
  | cons y ys ih =>
    intro h₀ hf
    by_cases hy : y.id = h.id
    · simp only [updateHostL, hy, if_true]
      rw [List.find?_cons_of_pos _ (by simp)]
    · simp only [updateHostL, hy, if_false]
      rw [List.find?_cons_of_neg _ (by simp [hy])] at hf
      rw [List.find?_cons_of_neg _ (by simp [hy])]
      exact ih h₀ hf

/-- Replacing a host whose id is absent is the identity. -/
theorem updateHostL_no_match (h : Host) :
    ∀ p : List Host, p.find? (fun x => x.id == h.id) = none → updateHostL p h = p := by
  intro p
  induction p with
  | nil => intro _; rfl
  | cons y ys ih =>
    intro hf
    by_cases hy : y.id = h.id
    · rw [List.find?_cons_of_pos _ (by simp [hy])] at hf; cases hf
    · rw [List.find?_cons_of_neg _ (by simp [hy])] at hf
      simp only [updateHostL, hy, if_false]
      rw [ih hf]

/-- Writing back a host does not change the mirror of other host ids. -/
theorem hostInfo_setHost_other (s : SimState) (h : Host) (hid : Nat) (hne : hid ≠ h.id) :
    hostInfo (s.setHost h) hid = hostInfo s hid := by
  unfold hostInfo SimState.setHost
  cases hp : s.platform with
  | none => simp
  | some p => simp [find_updateHostL_other h hid hne p]

/-- Writing back a host makes its own mirror entry the written host,
provided the id was present. -/
theorem hostInfo_setHost_self (s : SimState) (h h₀ : Host)
    (hh : hostInfo s h.id = some h₀) :
    hostInfo (s.setHost h) h.id = some h := by
  unfold hostInfo at hh
  unfold hostInfo SimState.setHost
  cases hp : s.platform with
  | none => rw [hp] at hh; cases hh
  | some p =>
    rw [hp] at hh
    simp only at hh
    simp [find_updateHostL_self h p h₀ hh]

/-- Writing back a host whose id is absent leaves the mirror unchanged. -/
theorem hostInfo_setHost_none (s : SimState) (h : Host)
    (hh : hostInfo s h.id = none) :
    hostInfo (s.setHost h) h.id = none := by
  unfold hostInfo at hh
  unfold hostInfo SimState.setHost
  cases hp : s.platform with
  | none => simp
  | some p =>
    rw [hp] at hh
    simp only at hh
    simp [updateHostL_no_match h p hh, hh]

/-- A successful platform fetch agrees with the hostInfo view. -/
theorem hostInfo_of_getPlatformHost (s : SimState) (hid : Nat) (h : Host)
    (hg : s.getPlatformHost hid = .ok h) : hostInfo s hid = some h := by
  unfold SimState.getPlatformHost at hg
  unfold hostInfo
  cases hp : s.platform with
  | none => rw [hp] at hg; cases hg
  | some p =>
    rw [hp] at hg
    simp only [getHost] at hg
    cases hf : p.find? (fun x => x.id == hid) with
    | none => rw [hf] at hg; cases hg
    | some h₀ =>
      rw [hf] at hg
      simp only at hg
      injection hg with h1
      simpa [h1] using hf

/-- A successful switch-on transition: the host was sleeping and only its
activity state changed. -/
theorem hSwitchOn_ok (h h' : Host) (hs : h.hSwitchOn = .ok h') :
    h' = { h with state := .switchingOn } ∧ h.state = .sleeping := by
  unfold Host.hSwitchOn at hs
  by_cases hst : h.state = .sleeping
  · rw [if_pos hst] at hs
    injection hs with h1
    exact ⟨h1.symm, hst⟩
  · rw [if_neg hst] at hs; cases hs

/-- Writing back a host with an unchanged power-state id preserves the
power-state mirror of every host. -/
theorem hostPstates_setHost (s : SimState) (h : Host)
    (hps : ∀ h₀, hostInfo s h.id = some h₀ → h₀.pstateId = h.pstateId) :
    ∀ hid, hostPstates (s.setHost h) hid = hostPstates s hid := by
  intro hid
  by_cases hne : hid = h.id
  · subst hne
    cases hh : hostInfo s h.id with
    | none =>
      unfold hostPstates
      rw [hh, hostInfo_setHost_none s h hh]
    | some h₀ =>
      unfold hostPstates
      rw [hh, hostInfo_setHost_self s h h₀ hh]
      simp [hps h₀ hh]
  · unfold hostPstates
    rw [hostInfo_setHost_other s h hid hne]

/-- The switch-on loop never changes any mirrored power-state id. -/
theorem hostPstates_switchOnAux (hid : Nat) :
    ∀ (ids : List Nat) (s : SimState),
      hostPstates ((switchOnAux s ids).state) hid = hostPstates s hid := by
  intro ids
  induction ids with
  | nil => intro s; rfl
  | cons i rest ih =>
    intro s
    cases hg : s.getPlatformHost i with
    | error e => simp only [switchOnAux, hg, Act.state]
    | ok host =>
      cases hs : host.hSwitchOn with
      | error e => simp only [switchOnAux, hg, hs, Act.state]
      | ok host' =>
        simp only [switchOnAux, hg, hs]
        rw [ih]
        have hinfo := hostInfo_of_getPlatformHost s i host hg
        have hswitch := hSwitchOn_ok host host' hs
        have hkey : ∀ h₀, hostInfo s host'.id = some h₀ → h₀.pstateId = host'.pstateId := by
          intro h₀ hh
          rw [hswitch.1] at hh ⊢
          rw [hostInfo_id s i host hinfo] at hh
          rw [hinfo] at hh
          injection hh with h1
          rw [← h1]
        have hstep : hostPstates ((s.setHost host').setBatsimHostPstate host'.id
            host'.defaultPStateId) hid = hostPstates (s.setHost host') hid := rfl
        rw [hstep, hostPstates_setHost s host' hkey hid]

/-- The public switch_on never changes any mirrored power-state id. -/
theorem hostPstates_switchOn (s : SimState) (ids : List Nat) (hid : Nat) :
    hostPstates ((s.switchOn ids).state) hid = hostPstates s hid := by
  unfold SimState.switchOn
  by_cases h1 : ¬ s.running
  · rw [if_pos h1]; rfl
  · rw [if_neg h1]
    by_cases h2 : s.platform = none
    · rw [if_pos h2]; rfl
    · rw [if_neg h2]
      exact hostPstates_switchOnAux hid ids s

/-- The readiness loop never changes any mirrored power-state id. -/
theorem hostPstates_checkAllocLoop (hid : Nat) :
    ∀ (ids : List Nat) (s : SimState) (b : Bool),
      hostPstates (checkState (checkAllocLoop s b ids)) hid = hostPstates s hid := by
  intro ids
  induction ids with
  | nil => intro s b; rfl
  | cons i rest ih =>
    intro s b
    cases hg : s.getPlatformHost i with
    | error e => simp only [checkAllocLoop, hg, checkState]
    | ok host =>
      by_cases hsl : host.isSleeping = true
      · cases hw : s.switchOn [host.id] with
        | error es =>
          simp only [checkAllocLoop, hg, hsl, if_true, hw]
          have hmono := hostPstates_switchOn s [host.id] hid
          rw [hw] at hmono
          simpa [Act.state, checkState] using hmono
        | ok s' =>
          simp only [checkAllocLoop, hg, hsl, if_true, hw]
          rw [ih]
          have hmono := hostPstates_switchOn s [host.id] hid
          rw [hw] at hmono
          simpa [Act.state] using hmono
      · simp only [checkAllocLoop, hg, hsl, if_false, Bool.false_eq_true]
        exact ih s _

/-- The per-job start loop never changes any mirrored power-state id. -/
theorem hostPstates_startRunnableAux (hid : Nat) :
    ∀ (L : List Job) (s : SimState),
      hostPstates ((startRunnableAux s L).state) hid = hostPstates s hid := by
  intro L
  induction L with
  | nil => intro s; rfl
  | cons j rest ih =>
    intro s
    by_cases hall : j.allocation = []
    · simp only [startRunnableAux, hall, if_pos, Act.state]
    · cases hc : checkAllocLoop s true j.allocation with
      | error es =>
        simp only [startRunnableAux, hall, if_false, hc]
        have hmono := hostPstates_checkAllocLoop hid j.allocation s true
        rw [hc] at hmono
        simpa [Act.state, checkState] using hmono
      | ok p =>
        obtain ⟨s', ready⟩ := p
        have hcs : hostPstates s' hid = hostPstates s hid := by
          have hmono := hostPstates_checkAllocLoop hid j.allocation s true
          rw [hc] at hmono
          simpa [checkState] using hmono
        by_cases hr : ready = true
        · cases hst : j.jStart s'.currentTime with
          | error e =>
            simp only [startRunnableAux, hall, if_false, hc, hr, if_true, hst]
            simpa [Act.state] using hcs
          | ok j' =>
            simp only [startRunnableAux, hall, if_false, hc, hr, if_true, hst]
            rw [ih]
            simpa [hostPstates, hostInfo] using hcs
        · simp only [startRunnableAux, hall, if_false, hc, hr, Bool.false_eq_true,
            ite_false]
          rw [ih]
          exact hcs

/-- One pass of __start_runnable_jobs never changes any mirrored
power-state id. -/
theorem hostPstates_startRunnableJobs (s : SimState) (hid : Nat) :
    hostPstates ((s.startRunnableJobs).state) hid = hostPstates s hid := by
  unfold SimState.startRunnableJobs
  by_cases h1 : ¬ s.running
  · rw [if_pos h1]; rfl
  · rw [if_neg h1]
    by_cases h2 : s.platform = none
    · rw [if_pos h2]; rfl
    · rw [if_neg h2]
      exact hostPstates_startRunnableAux hid (s.jobs.filter Job.isRunnable) s

/-- The transition rules of the host state-changed handler preserve the
host id. -/
theorem hostStateRules_id (h : Host) (ps : Nat) (h' : Host)
    (hr : hostStateRules h ps = .ok h') : h'.id = h.id := by
  unfold hostStateRules Host.hSetOff Host.hSetOn Host.hSetComputationPstate at hr
  split at hr
  · injection hr with h1; rw [← h1]
  · split at hr
    · injection hr with h1; rw [← h1]
    · split at hr
      · split at hr
        · injection hr with h1; rw [← h1]
        · cases hr
      · injection hr with h1; rw [← h1]

/-- When the host state-changed loop completes without a fault, every
processed host's mirrored power-state id equals the reported one, and no
other host's mirrored power-state id changed. -/
theorem hostStateChangedLoop_ok (ps : Nat) :
    ∀ (rs : List Nat) (s s₁ : SimState),
      hostStateChangedLoop s ps rs = .ok s₁ →
      (∀ hid ∈ rs, hostPstates s₁ hid = some ps) ∧
      (∀ hid, hid ∉ rs → hostPstates s₁ hid = hostPstates s hid) := by
  intro rs
  induction rs with
  | nil =>
    intro s s₁ h
    simp only [hostStateChangedLoop] at h
    injection h with h1
    subst h1
    exact ⟨by simp, fun _ _ => rfl⟩
  | cons i rest ih =>
    intro s s₁ h
    cases hg : s.getPlatformHost i with
    | error e =>
      simp only [hostStateChangedLoop, hg] at h
      exact Except.noConfusion h
    | ok hh =>
      cases hrules : hostStateRules hh ps with
      | error e =>
        simp only [hostStateChangedLoop, hg, hrules] at h
        exact Except.noConfusion h
      | ok h' =>
        by_cases hps : h'.pstateId = ps
        · have hcond : ¬ (h'.pstateId ≠ ps) := by simpa using hps
          simp only [hostStateChangedLoop, hg, hrules, hcond, if_false, ite_false,
            if_neg hcond] at h
          have hrest := ih (s.setHost h') s₁ h
          have hinfo := hostInfo_of_getPlatformHost s i hh hg
          have hids : h'.id = i := by
            rw [hostStateRules_id hh ps h' hrules, hostInfo_id s i hh hinfo]
          constructor
          · intro hid hmem
            rcases List.mem_cons.mp hmem with heq | hmem2
            · subst heq
              by_cases hin : hid ∈ rest
              · exact hrest.1 hid hin
              · rw [hrest.2 hid hin]
                unfold hostPstates
                have hself : hostInfo (s.setHost h') h'.id = some h' := by
                  apply hostInfo_setHost_self s h' hh
                  rw [hids]
                  exact hinfo
                rw [hids] at hself
                rw [hself]
                simp [hps]
            · exact hrest.1 hid hmem2
          · intro hid hnot
            have hne : hid ≠ i := fun he => hnot (he ▸ List.mem_cons_self i rest)
            have hnr : hid ∉ rest := fun hin => hnot (List.mem_cons_of_mem i hin)
            rw [hrest.2 hid hnr]
            unfold hostPstates
            rw [hostInfo_setHost_other s h' hid (by rw [hids]; exact hne)]
        · have hcond : h'.pstateId ≠ ps := hps
          simp only [hostStateChangedLoop, hg, hrules, if_pos hcond] at h
          exact Except.noConfusion h

/-- Claim C2: when the resource-state-changed handler completes without a
fault, every affected host's mirrored power-state id equals the
engine-reported one; and when the transition rules leave a host with a
mirrored power-state id differing from the reported one, the handler
raises the fatal SystemError and the mismatched mirror value is kept, not
silently corrected. -/
theorem claim2_mirror_matches_engine_pstate :
    (∀ (s : SimState) (rs : List Nat) (ps : Nat) (s₁ : SimState),
        s.onBatsimHostStateChanged rs ps = .ok s₁ →
        ∀ hid ∈ rs, hostPstates s₁ hid = some ps) ∧
    (∀ (s : SimState) (ps hid : Nat) (rest : List Nat) (h h' : Host),
        s.platform ≠ none →
        s.getPlatformHost hid = .ok h →
        hostStateRules h ps = .ok h' →
        h'.pstateId ≠ ps →
        s.onBatsimHostStateChanged (hid :: rest) ps
          = .error (.systemError, s.setHost h') ∧
        hostPstates (s.setHost h') hid = some h'.pstateId) := by
  constructor
  · intro s rs ps s₁ h hid hmem
    unfold SimState.onBatsimHostStateChanged at h
    by_cases hplat : s.platform = none
    · rw [if_pos hplat] at h; cases h
    · rw [if_neg hplat] at h
      cases hloop : hostStateChangedLoop s ps rs with
      | error es =>
        rw [hloop] at h
        simp at h
      | ok s₂ =>
        rw [hloop] at h
        replace h : s₂.startRunnableJobs = .ok s₁ := h
        have hpres := hostPstates_startRunnableJobs s₂ hid
        rw [h] at hpres
        have hl := (hostStateChangedLoop_ok ps rs s s₂ hloop).1 hid hmem
        rw [← hl]
        simpa [Act.state] using hpres
  · intro s ps hid rest h h' hplat hget hrules hne
    have hinfo := hostInfo_of_getPlatformHost s hid h hget
    have hids : h'.id = hid := by
      rw [hostStateRules_id h ps h' hrules, hostInfo_id s hid h hinfo]
    constructor
    · unfold SimState.onBatsimHostStateChanged
      rw [if_neg hplat]
      simp only [hostStateChangedLoop, hget, hrules, if_pos hne]
    · have hself : hostInfo (s.setHost h') h'.id = some h' := by
        apply hostInfo_setHost_self s h' h
        rw [hids]
        exact hinfo
      rw [hids] at hself
      unfold hostPstates
      rw [hself]
      rfl

/-- Claim C2 witness: the theorem applied to the switching-off host with
sleep power state 9, once with the engine reporting 9 (success, mirror
matches) and once reporting 5 (fatal SystemError, mismatch kept). -/
theorem claim2_witness :
    hostPstates ((exOffState.onBatsimHostStateChanged [0] 9).state) 0 = some 9 ∧
    exOffState.onBatsimHostStateChanged [0] 5
      = .error (.systemError, exOffState.setHost exHostOff.hSetOff) :=
  ⟨by
    have hmain := (claim2_mirror_matches_engine_pstate.1 exOffState [0] 9 _ rfl) 0 (by simp)
    exact hmain,
   (claim2_mirror_matches_engine_pstate.2 exOffState 5 0 [] exHostOff exHostOff.hSetOff
      (by decide) rfl rfl (by decide)).1⟩

/-- Appending requests preserves pending power-state requests. -/
theorem requestedIn_append (rs l : List BatsimRequest) (hid ps : Nat)
    (h : requestedIn rs hid ps) : requestedIn (rs ++ l) hid ps := by
  obtain ⟨t, res, hmem, hin⟩ := h
  exact ⟨t, res, List.mem_append_left l hmem, hin⟩

/-- Coalescing preserves every pending power-state request. -/
theorem requestedIn_coalesce_mono (t : ℚ) (psB hidB : Nat) (hid ps : Nat) :
    ∀ rs : List BatsimRequest, requestedIn rs hid ps →
      requestedIn (coalescePstate t psB hidB rs) hid ps := by
  intro rs
  induction rs with
  | nil =>
    intro h
    obtain ⟨_, _, hmem, _⟩ := h
    cases hmem
  | cons r rest ih =>
    intro h
    obtain ⟨u, res, hmem, hin⟩ := h
    by_cases hm : matchesPstateRequest t psB r = true
    · simp only [coalescePstate, hm, if_true]
      rcases List.mem_cons.mp hmem with heq | hmem2
      · refine ⟨u, res ++ [hidB], ?_, List.mem_append_left _ hin⟩
        rw [← heq]
        simp [BatsimRequest.addResource]
      · exact ⟨u, res, List.mem_cons_of_mem _ hmem2, hin⟩
    · simp only [coalescePstate, hm, Bool.false_eq_true, if_false]
      rcases List.mem_cons.mp hmem with heq | hmem2
      · exact ⟨u, res, by rw [heq]; exact List.mem_cons_self _ _, hin⟩
      · obtain ⟨v, res2, hmem3, hin3⟩ := ih ⟨u, res, hmem2, hin⟩
        exact ⟨v, res2, List.mem_cons_of_mem _ hmem3, hin3⟩

/-- Coalescing a host id installs a pending power-state request for it. -/
theorem requestedIn_coalesce_self (t : ℚ) (ps hid : Nat) :
    ∀ rs : List BatsimRequest, requestedIn (coalescePstate t ps hid rs) hid ps := by
  intro rs
  induction rs with
  | nil => exact ⟨t, [hid], by simp [coalescePstate], by simp⟩
  | cons r rest ih =>
    by_cases hm : matchesPstateRequest t ps r = true
    · obtain ⟨res, hreq⟩ := matchesPstateRequest_true t ps r hm
      subst hreq
      exact ⟨t, res ++ [hid],
        by simp [coalescePstate, hm, BatsimRequest.addResource], by simp⟩
    · obtain ⟨u, res, hmem, hin⟩ := ih
      refine ⟨u, res, ?_, hin⟩
      simp only [coalescePstate, hm, Bool.false_eq_true, if_false]
      exact List.mem_cons_of_mem _ hmem

/-- PassMono is reflexive. -/
theorem passMono_refl (s : SimState) : PassMono s s :=
  ⟨fun _ _ h => h, fun _ => Or.inl rfl⟩

/-- PassMono is transitive: a host switched on during an earlier part of
the pass is never sleeping again later in the same pass. -/
theorem passMono_trans (s₁ s₂ s₃ : SimState)
    (h12 : PassMono s₁ s₂) (h23 : PassMono s₂ s₃) : PassMono s₁ s₃ := by
  refine ⟨fun hid ps h => h23.1 hid ps (h12.1 hid ps h), ?_⟩
  intro hid
  rcases h23.2 hid with h3 | ⟨h, hh, hsleep, hnew, hreq⟩
  · rcases h12.2 hid with h2 | ⟨h, hh, hsleep, hnew, hreq⟩
    · exact Or.inl (h3.trans h2)
    · exact Or.inr ⟨h, hh, hsleep, h3.trans hnew, h23.1 _ _ hreq⟩
  · rcases h12.2 hid with h2 | ⟨g, hg, gsleep, gnew, greq⟩
    · rw [h2] at hh
      exact Or.inr ⟨h, hh, hsleep, hnew, hreq⟩
    · rw [gnew] at hh
      injection hh with he
      rw [← he] at hsleep
      simp at hsleep

/-- PassMono preserves existence of the host mirror entry. -/
theorem passMono_hostInfo_isSome (s s' : SimState) (hm : PassMono s s') (hid : Nat)
    (h : (hostInfo s hid).isSome = true) : (hostInfo s' hid).isSome = true := by
  rcases hm.2 hid with h2 | ⟨g, hg, _, hnew, _⟩
  · rw [h2]; exact h
  · rw [hnew]; rfl

/-- A host that is not sleeping is untouched by the rest of the pass. -/
theorem passMono_stable (s s' : SimState) (hm : PassMono s s') (hid : Nat) (h : Host)
    (hh : hostInfo s hid = some h) (hst : h.state ≠ .sleeping) :
    hostInfo s' hid = some h := by
  rcases hm.2 hid with h2 | ⟨g, hg, gsleep, _, _⟩
  · rw [h2, hh]
  · rw [hg] at hh
    injection hh with he
    rw [← he] at hst
    exact absurd gsleep hst

/-- A host whose mirror entry is idle after part of the pass was already
idle before it: the pass only turns sleeping hosts into switching-on. -/
theorem passMono_idle_back (s s' : SimState) (hm : PassMono s s') (hid : Nat) (h : Host)
    (hh : hostInfo s hid = some h)
    (hidle : ∀ g, hostInfo s' hid = some g → g.state = .idle) : h.state = .idle := by
  rcases hm.2 hid with h2 | ⟨g, hg, gsleep, gnew, _⟩
  · exact hidle h (by rw [h2, hh])
  · have := hidle _ gnew
    simp at this

/-- switch_on of a single sleeping host succeeds, marks the host as
switching on, queues the power-state request for its default power state,
and changes nothing else the pass cares about. -/
theorem switchOn_sleeping (s : SimState) (hid : Nat) (h : Host)
    (hrun : s.running = true) (hh : hostInfo s hid = some h)
    (hsleep : h.state = .sleeping) :
    ∃ s', s.switchOn [hid] = .ok s' ∧
      PassMono s s' ∧
      s'.running = true ∧ s'.platform.isSome = s.platform.isSome ∧
      s'.jobs = s.jobs ∧ s'.rawTime = s.rawTime ∧
      hostInfo s' hid = some { h with state := .switchingOn } ∧
      pstateRequested s' hid h.defaultPStateId := by
  obtain ⟨p, hp⟩ := platform_of_hostInfo s hid h hh
  have hget := getPlatformHost_of_hostInfo s hid h hh
  have hswitch : h.hSwitchOn = .ok { h with state := .switchingOn } := by
    unfold Host.hSwitchOn
    rw [if_pos hsleep]
  have hids : h.id = hid := hostInfo_id s hid h hh
  refine ⟨(s.setHost { h with state := .switchingOn }).setBatsimHostPstate
      ({ h with state := .switchingOn } : Host).id
      ({ h with state := .switchingOn } : Host).defaultPStateId, ?_, ?_, ?_, ?_, ?_, ?_, ?_, ?_⟩
  · unfold SimState.switchOn
    rw [if_neg (by simp [hrun]), if_neg (by simp [hp])]
    simp only [switchOnAux, hget, hswitch]
  · constructor
    · intro x px hx
      exact requestedIn_coalesce_mono _ _ _ _ _ _ hx
    · intro x
      by_cases hxe : x = hid
      · subst hxe
        refine Or.inr ⟨h, hh, hsleep, ?_, ?_⟩
        · have hself : hostInfo (s.setHost { h with state := .switchingOn })
              ({ h with state := .switchingOn } : Host).id
              = some { h with state := .switchingOn } :=
            hostInfo_setHost_self s _ h (by
              show hostInfo s h.id = some h
              rw [hids]; exact hh)
          show hostInfo (s.setHost { h with state := .switchingOn }) x = _
          rw [show x = ({ h with state := .switchingOn } : Host).id from hids.symm]
          exact hself
        · show requestedIn (coalescePstate _ _ _ _) x _
          rw [show x = ({ h with state := .switchingOn } : Host).id from hids.symm]
          exact requestedIn_coalesce_self _ _ _ _
      · refine Or.inl ?_
        show hostInfo (s.setHost { h with state := .switchingOn }) x = hostInfo s x
        exact hostInfo_setHost_other s _ x (by simpa [hids] using hxe)
  · exact hrun
  · show (s.setHost { h with state := .switchingOn }).platform.isSome = s.platform.isSome
    unfold SimState.setHost
    cases s.platform <;> rfl
  · rfl
  · rfl
  · have hself : hostInfo (s.setHost { h with state := .switchingOn })
        ({ h with state := .switchingOn } : Host).id = some { h with state := .switchingOn } :=
      hostInfo_setHost_self s _ h (by
        show hostInfo s h.id = some h
        rw [hids]; exact hh)
    show hostInfo (s.setHost { h with state := .switchingOn }) hid = _
    rw [show hid = ({ h with state := .switchingOn } : Host).id from hids.symm]
    exact hself
  · show requestedIn (coalescePstate _ _ _ _) hid _
    rw [show hid = ({ h with state := .switchingOn } : Host).id from hids.symm]
    exact requestedIn_coalesce_self _ _ _ _

/-- Master lemma for the readiness loop over one allocation: it always
succeeds when the hosts exist, evolves the state monotonically, switches
on exactly the sleeping hosts, and reports ready only when it mutated
nothing and all hosts were idle. -/
theorem checkAllocLoop_master :
    ∀ (ids : List Nat) (s : SimState) (ready : Bool),
    s.running = true → s.platform.isSome = true →
    (∀ hid ∈ ids, (hostInfo s hid).isSome = true) →
    ∃ s' r, checkAllocLoop s ready ids = .ok (s', r) ∧
      PassMono s s' ∧
      s'.running = true ∧ s'.platform.isSome = true ∧
      s'.jobs = s.jobs ∧ s'.rawTime = s.rawTime ∧
      (∀ hid ∈ ids, ∀ h, hostInfo s hid = some h → h.state = .sleeping →
          hostInfo s' hid = some { h with state := .switchingOn } ∧
          pstateRequested s' hid h.defaultPStateId) ∧
      (r = true → ready = true ∧ s' = s ∧
          ∀ hid ∈ ids, ∀ h, hostInfo s hid = some h → h.state = .idle) ∧
      (ready = false → r = false) := by
  intro ids
  induction ids with
  | nil =>
    intro s ready hrun hplat _
    exact ⟨s, ready, rfl, passMono_refl s, hrun, hplat, rfl, rfl,
      by simp, fun hr => ⟨hr, rfl, by simp⟩, fun hf => hf⟩
  | cons i rest ih =>
    intro s ready hrun hplat hids
    have hione := hids i (List.mem_cons_self i rest)
    obtain ⟨h, hh⟩ := Option.isSome_iff_exists.mp hione
    have hget := getPlatformHost_of_hostInfo s i h hh
    have hidh : h.id = i := hostInfo_id s i h hh
    by_cases hsl : h.isSleeping = true
    · have hstate : h.state = .sleeping := by simpa [Host.isSleeping] using hsl
      obtain ⟨s₁, heval, hmono₁, hrun₁, hplat₁, hjobs₁, hraw₁, hinfo₁, hreq₁⟩ :=
        switchOn_sleeping s i h hrun hh hstate
      have heval2 : s.switchOn [h.id] = .ok s₁ := by rw [hidh]; exact heval
      have hready2 : (if ¬ h.isIdle then false else ready) = false := by
        have hne : h.isIdle = false := by simp [Host.isIdle, hstate]
        simp [hne]
      have hrest_ids : ∀ hid ∈ rest, (hostInfo s₁ hid).isSome = true := fun hid hm =>
        passMono_hostInfo_isSome s s₁ hmono₁ hid (hids hid (List.mem_cons_of_mem i hm))
      obtain ⟨s', r, heq, hmono₂, hrun₂, hplat₂, hjobs₂, hraw₂, hsleepC₂, _, hrf₂⟩ :=
        ih s₁ false hrun₁ (by rw [hplat₁]; exact hplat) hrest_ids
      refine ⟨s', r, ?_, passMono_trans s s₁ s' hmono₁ hmono₂, hrun₂,
        hplat₂, by rw [hjobs₂, hjobs₁], by rw [hraw₂, hraw₁], ?_, ?_, ?_⟩
      · simp only [checkAllocLoop, hget, hsl, if_true, heval2, hready2]
        exact heq
      · intro hid hm g hg hgs
        rcases List.mem_cons.mp hm with heqi | hm2
        · subst heqi
          rw [hh] at hg
          injection hg with hgh
          subst hgh
          have hstay := passMono_stable s₁ s' hmono₂ hid _ hinfo₁ (by simp)
          exact ⟨hstay, hmono₂.1 _ _ hreq₁⟩
        · rcases hmono₁.2 hid with hsame | ⟨g₂, hg₂, g₂sleep, hnew₂, hreq₂⟩
          · exact hsleepC₂ hid hm2 g (by rw [hsame]; exact hg) hgs
          · rw [hg₂] at hg
            injection hg with hgg
            subst hgg
            have hstay := passMono_stable s₁ s' hmono₂ hid _ hnew₂ (by simp)
            exact ⟨hstay, hmono₂.1 _ _ hreq₂⟩
      · intro hr
        rw [hrf₂ rfl] at hr
        cases hr
      · intro _
        exact hrf₂ rfl
    · have hstate : h.state ≠ .sleeping := by
        intro hcon
        exact hsl (by simp [Host.isSleeping, hcon])
      by_cases hidl : h.isIdle = true
      · have hready2 : (if ¬ h.isIdle then false else ready) = ready := by simp [hidl]
        have hidle_state : h.state = .idle := by simpa [Host.isIdle] using hidl
        obtain ⟨s', r, heq, hmono₂, hrun₂, hplat₂, hjobs₂, hraw₂, hsleepC₂, hrtrue₂, hrf₂⟩ :=
          ih s ready hrun hplat
            (fun hid hm => hids hid (List.mem_cons_of_mem i hm))
        refine ⟨s', r, ?_, hmono₂, hrun₂, hplat₂, hjobs₂, hraw₂, ?_, ?_, hrf₂⟩
        · simp only [checkAllocLoop, hget, hsl, Bool.false_eq_true, if_false, hready2]
          exact heq
        · intro hid hm g hg hgs
          rcases List.mem_cons.mp hm with heqi | hm2
          · subst heqi
            rw [hh] at hg
            injection hg with hgh
            subst hgh
            exact absurd hgs hstate
          · exact hsleepC₂ hid hm2 g hg hgs
        · intro hr
          obtain ⟨hready, hseq, hrestidle⟩ := hrtrue₂ hr
          refine ⟨hready, hseq, ?_⟩
          intro hid hm g hg
          rcases List.mem_cons.mp hm with heqi | hm2
          · subst heqi
            rw [hh] at hg
            injection hg with hgh
            subst hgh
            exact hidle_state
          · exact hrestidle hid hm2 g hg
      · have hready2 : (if ¬ h.isIdle then false else ready) = false := by simp [hidl]
        obtain ⟨s', r, heq, hmono₂, hrun₂, hplat₂, hjobs₂, hraw₂, hsleepC₂, _, hrf₂⟩ :=
          ih s false hrun hplat
            (fun hid hm => hids hid (List.mem_cons_of_mem i hm))
        refine ⟨s', r, ?_, hmono₂, hrun₂, hplat₂, hjobs₂, hraw₂, ?_, ?_, ?_⟩
        · simp only [checkAllocLoop, hget, hsl, Bool.false_eq_true, if_false, hready2]
          exact heq
        · intro hid hm g hg hgs
          rcases List.mem_cons.mp hm with heqi | hm2
          · subst heqi
            rw [hh] at hg
            injection hg with hgh
            subst hgh
            exact absurd hgs hstate
          · exact hsleepC₂ hid hm2 g hg hgs
        · intro hr
          rw [hrf₂ rfl] at hr
          cases hr
        · intro _
          exact hrf₂ rfl

/-- Replacing the first job carrying one id does not change the lookup of
another id. -/
theorem findJob_setJob_other (jid i : String) (jB : Job) (hne : jid ≠ i)
    (hjB : jB.id = i) :
    ∀ l : List Job, findJob (setJob l i jB) jid = findJob l jid := by
  intro l
  induction l with
  | nil => rfl
  | cons x xs ih =>
    by_cases hx : x.id = i
    · simp only [setJob, hx, if_true]
      unfold findJob
      rw [List.find?_cons_of_neg _ (by simp [hjB]; exact fun he => hne he.symm),
          List.find?_cons_of_neg _ (by simp [hx]; exact fun he => hne he.symm)]
    · simp only [setJob, hx, if_false]
      by_cases hxj : x.id = jid
      · unfold findJob
        rw [List.find?_cons_of_pos _ (by simp [hxj]),
            List.find?_cons_of_pos _ (by simp [hxj])]
      · unfold findJob at ih ⊢
        rw [List.find?_cons_of_neg _ (by simp [hxj]),
            List.find?_cons_of_neg _ (by simp [hxj])]
        exact ih

/-- With no duplicate job ids, the registry lookup of a member's id
returns exactly that member. -/
theorem findJob_of_mem_nodup :
    ∀ l : List Job, (l.map Job.id).Nodup → ∀ j ∈ l, findJob l j.id = some j := by
  intro l
  induction l with
  | nil => intro _ j hj; cases hj
  | cons x xs ih =>
    intro hnd j hj
    have hnd2 : x.id ∉ xs.map Job.id ∧ (xs.map Job.id).Nodup := by
      rw [List.map_cons, List.nodup_cons] at hnd
      exact hnd
    rcases List.mem_cons.mp hj with he | hm
    · subst he
      unfold findJob
      rw [List.find?_cons_of_pos _ (by simp)]
    · by_cases hx : x.id = j.id
      · exfalso
        have hmap : j.id ∈ xs.map Job.id := List.mem_map.mpr ⟨j, hm, rfl⟩
        rw [← hx] at hmap
        exact hnd2.1 hmap
      · unfold findJob
        rw [List.find?_cons_of_neg _ (by simp [hx])]
        exact ih hnd2.2 j hm

/-- With no duplicate job ids, two members with equal ids are equal. -/
theorem nodup_job_id_inj (l : List Job) (hnd : (l.map Job.id).Nodup)
    (a b : Job) (ha : a ∈ l) (hb : b ∈ l) (hab : a.id = b.id) : a = b := by
  have h1 := findJob_of_mem_nodup l hnd a ha
  have h2 := findJob_of_mem_nodup l hnd b hb
  rw [hab] at h1
  rw [h1] at h2
  injection h2

/-- Master lemma for one pass over the captured runnable jobs: the pass
succeeds when the state is well formed, evolves monotonically, switches
on every sleeping allocated host, and a job lookup either is unchanged or
the id belongs to a processed job all of whose hosts were idle at the
start of the pass. -/
theorem startRunnableAux_master :
    ∀ (L : List Job) (s : SimState),
    s.running = true → s.platform.isSome = true →
    (∀ j ∈ L, j.state = .allocated ∧ j.allocation ≠ [] ∧
        ∀ hid ∈ j.allocation, (hostInfo s hid).isSome = true) →
    ∃ s', startRunnableAux s L = .ok s' ∧
      PassMono s s' ∧ s'.running = true ∧ s'.platform.isSome = true ∧
      s'.rawTime = s.rawTime ∧
      (∀ j ∈ L, ∀ hid ∈ j.allocation, ∀ h, hostInfo s hid = some h →
          h.state = .sleeping →
          hostInfo s' hid = some { h with state := .switchingOn } ∧
          pstateRequested s' hid h.defaultPStateId) ∧
      (∀ jid, findJob s'.jobs jid = findJob s.jobs jid ∨
          ∃ j, j ∈ L ∧ j.id = jid ∧
            ∀ hid ∈ j.allocation, ∀ h, hostInfo s hid = some h → h.state = .idle) := by
  intro L
  induction L with
  | nil =>
    intro s hrun hplat _
    exact ⟨s, rfl, passMono_refl s, hrun, hplat, rfl, by simp, fun _ => Or.inl rfl⟩
  | cons j rest ih =>
    intro s hrun hplat hL
    obtain ⟨hjstate, hjalloc, hjhosts⟩ := hL j (List.mem_cons_self j rest)
    obtain ⟨s₁, r, hceq, hmono₁, hrun₁, hplat₁, hjobs₁, hraw₁, hsleepC₁, hrtrue₁, _⟩ :=
      checkAllocLoop_master j.allocation s true hrun hplat hjhosts
    by_cases hr : r = true
    · obtain ⟨_, hs₁eq, hidle⟩ := hrtrue₁ hr
      subst hr
      subst hs₁eq
      have hstart : j.jStart s₁.currentTime
          = .ok { j with state := .running, startTime := some s₁.currentTime } := by
        unfold Job.jStart
        rw [if_pos hjstate]
      obtain ⟨s', heq₂, hmono₂, hrun₂, hplat₂, hraw₂, hsleepC₂, hfind₂⟩ :=
        ih ({ s₁ with jobs := setJob s₁.jobs j.id ({ j with state := .running, startTime := some s₁.currentTime }), batsimRequests := s₁.batsimRequests ++ [.executeJob s₁.currentTime j.id j.allocation] })
          hrun₁ hplat₁
          (fun j₂ hm => hL j₂ (List.mem_cons_of_mem j hm))
      have hmono12 : PassMono s₁
          ({ s₁ with jobs := setJob s₁.jobs j.id ({ j with state := .running, startTime := some s₁.currentTime }), batsimRequests := s₁.batsimRequests ++ [.executeJob s₁.currentTime j.id j.allocation] }) :=
        ⟨fun _ _ hx => requestedIn_append _ _ _ _ hx, fun _ => Or.inl rfl⟩
      refine ⟨s', ?_, passMono_trans s₁ _ s' hmono12 hmono₂, hrun₂, hplat₂,
        hraw₂, ?_, ?_⟩
      · simp only [startRunnableAux, hjalloc, if_false, hceq, if_true, hstart]
        exact heq₂
      · intro jx hm hid hmh g hg hgs
        rcases List.mem_cons.mp hm with heqj | hm2
        · subst heqj
          exact absurd hgs (by rw [hidle hid hmh g hg]; simp)
        · exact hsleepC₂ jx hm2 hid hmh g hg hgs
      · intro jid
        rcases hfind₂ jid with hl | ⟨j₂, hj₂, hjid, hidle₂⟩
        · by_cases hje : jid = j.id
          · subst hje
            exact Or.inr ⟨j, List.mem_cons_self j rest, rfl, hidle⟩
          · refine Or.inl ?_
            rw [hl]
            exact findJob_setJob_other jid j.id ({ j with state := .running, startTime := some s₁.currentTime }) hje rfl s₁.jobs
        · exact Or.inr ⟨j₂, List.mem_cons_of_mem j hj₂, hjid, hidle₂⟩
    · have hrf : r = false := by
        cases r
        · rfl
        · exact absurd rfl hr
      subst hrf
      obtain ⟨s', heq₂, hmono₂, hrun₂, hplat₂, hraw₂, hsleepC₂, hfind₂⟩ :=
        ih s₁ hrun₁ hplat₁
          (fun j₂ hm => by
            obtain ⟨ha, hb, hc⟩ := hL j₂ (List.mem_cons_of_mem j hm)
            exact ⟨ha, hb, fun hid hmh =>
              passMono_hostInfo_isSome s s₁ hmono₁ hid (hc hid hmh)⟩)
      refine ⟨s', ?_, passMono_trans s s₁ s' hmono₁ hmono₂, hrun₂, hplat₂,
        by rw [hraw₂, hraw₁], ?_, ?_⟩
      · simp only [startRunnableAux, hjalloc, if_false, hceq, Bool.false_eq_true,
          ite_false]
        exact heq₂
      · intro jx hm hid hmh g hg hgs
        rcases List.mem_cons.mp hm with heqj | hm2
        · subst heqj
          obtain ⟨hstay₁, hreq₁⟩ := hsleepC₁ hid hmh g hg hgs
          have hstay := passMono_stable s₁ s' hmono₂ hid _ hstay₁ (by simp)
          exact ⟨hstay, hmono₂.1 _ _ hreq₁⟩
        · rcases hmono₁.2 hid with hsame | ⟨g₂, hg₂, g₂sleep, hnew₂, hreq₂⟩
          · exact hsleepC₂ jx hm2 hid hmh g (by rw [hsame]; exact hg) hgs
          · rw [hg₂] at hg
            injection hg with hgg
            subst hgg
            have hstay := passMono_stable s₁ s' hmono₂ hid _ hnew₂ (by simp)
            exact ⟨hstay, hmono₂.1 _ _ hreq₂⟩
      · intro jid
        rcases hfind₂ jid with hl | ⟨j₂, hj₂, hjid, hidle₂⟩
        · refine Or.inl ?_
          rw [hl, hjobs₁]
        · refine Or.inr ⟨j₂, List.mem_cons_of_mem j hj₂, hjid, ?_⟩
          intro hid hmh g hg
          exact passMono_idle_back s s₁ hmono₁ hid g hg (hidle₂ hid hmh)

/-- Master lemma for __start_runnable_jobs on a well-formed running
state. -/
theorem startRunnableJobs_master (s : SimState)
    (hrun : s.running = true) (hplat : s.platform.isSome = true)
    (hwf : ∀ j ∈ s.jobs, j.isRunnable = true → j.allocation ≠ [] ∧
        ∀ hid ∈ j.allocation, (hostInfo s hid).isSome = true) :
    ∃ s', s.startRunnableJobs = .ok s' ∧ PassMono s s' ∧
      (∀ j ∈ s.jobs, j.isRunnable = true → ∀ hid ∈ j.allocation,
          ∀ h, hostInfo s hid = some h → h.state = .sleeping →
          hostInfo s' hid = some { h with state := .switchingOn } ∧
          pstateRequested s' hid h.defaultPStateId) ∧
      (∀ jid, findJob s'.jobs jid = findJob s.jobs jid ∨
          ∃ j, j ∈ s.jobs ∧ j.isRunnable = true ∧ j.id = jid ∧
            ∀ hid ∈ j.allocation, ∀ h, hostInfo s hid = some h → h.state = .idle) := by
  have hL : ∀ j ∈ s.jobs.filter Job.isRunnable, j.state = .allocated ∧
      j.allocation ≠ [] ∧ ∀ hid ∈ j.allocation, (hostInfo s hid).isSome = true := by
    intro j hj
    have hmf := List.mem_filter.mp hj
    have hstate : j.state = .allocated := by simpa [Job.isRunnable] using hmf.2
    exact ⟨hstate, (hwf j hmf.1 hmf.2).1, (hwf j hmf.1 hmf.2).2⟩
  obtain ⟨s', heq, hmono, _, _, _, hsleepC, hfind⟩ :=
    startRunnableAux_master (s.jobs.filter Job.isRunnable) s hrun hplat hL
  have heval : s.startRunnableJobs = .ok s' := by
    unfold SimState.startRunnableJobs
    rw [if_neg (by simp [hrun]),
        if_neg (fun hnone => by rw [hnone] at hplat; simp at hplat)]
    exact heq
  refine ⟨s', heval, hmono, ?_, ?_⟩
  · intro j hj hjr
    exact hsleepC j (List.mem_filter.mpr ⟨hj, hjr⟩)
  · intro jid
    rcases hfind jid with hl | ⟨j, hjf, hjid, hidle⟩
    · exact Or.inl hl
    · have hmf := List.mem_filter.mp hjf
      exact Or.inr ⟨j, hmf.1, hmf.2, hjid, hidle⟩

/-- Claim C1: whenever one pass of __start_runnable_jobs (run after an
allocation, a host state change, a job completion, and on each loop
iteration) turns a job to running, every host in that job's allocation
was idle in the mirror when the pass began; a job with any sleeping,
switching or computing allocated host is not started by the pass. -/
theorem claim1_start_only_when_all_hosts_idle (s : SimState) (j : Job)
    (hrun : s.running = true) (hplat : s.platform.isSome = true)
    (hnodup : (s.jobs.map Job.id).Nodup)
    (hj : j ∈ s.jobs) (hnotrun : j.state ≠ .running)
    (hwf : ∀ jx ∈ s.jobs, jx.isRunnable = true → jx.allocation ≠ [] ∧
        ∀ hid ∈ jx.allocation, (hostInfo s hid).isSome = true)
    (hstarted : (findJob ((s.startRunnableJobs).state).jobs j.id).map Job.state
        = some .running) :
    ∀ hid ∈ j.allocation, ∃ h, hostInfo s hid = some h ∧ h.state = .idle := by
  obtain ⟨s', heq, hmono, hsleepC, hfind⟩ := startRunnableJobs_master s hrun hplat hwf
  rw [heq] at hstarted
  simp only [Act.state] at hstarted
  have hfj : findJob s.jobs j.id = some j := findJob_of_mem_nodup s.jobs hnodup j hj
  rcases hfind j.id with hl | ⟨j₂, hj₂, hj₂r, hjid, hidle⟩
  · rw [hl, hfj] at hstarted
    simp only [Option.map_some'] at hstarted
    injection hstarted with hst
    exact absurd hst hnotrun
  · have hj₂j : j₂ = j := nodup_job_id_inj s.jobs hnodup j₂ j hj₂ hj hjid
    subst hj₂j
    intro hid hm
    have hsome := (hwf j₂ hj₂ hj₂r).2 hid hm
    obtain ⟨h, hh⟩ := Option.isSome_iff_exists.mp hsome
    exact ⟨h, hh, hidle hid hm h hh⟩

/-- Claim C1 witness: the theorem applied to the state with one runnable
job whose only host is idle; the pass does start the job. -/
theorem claim1_witness :
    ∃ h, hostInfo exStartState 0 = some h ∧ h.state = HostState.idle :=
  claim1_start_only_when_all_hosts_idle exStartState exJobAlloc rfl rfl
    (by decide) (by simp [exStartState, exBase]) (by decide) (by decide) rfl
    0 (by decide)

/-- Claim C9: during a pass of __start_runnable_jobs over a well-formed
state, a sleeping host belonging to a runnable job's allocation is
automatically switched on: afterwards its mirror is switching-on and a
set-resource-state request towards its default power state is pending,
while the job itself is left unstarted in the registry. -/
theorem claim9_sleeping_host_auto_switched_on (s : SimState) (j : Job)
    (hid : Nat) (h : Host)
    (hrun : s.running = true) (hplat : s.platform.isSome = true)
    (hnodup : (s.jobs.map Job.id).Nodup)
    (hwf : ∀ jx ∈ s.jobs, jx.isRunnable = true → jx.allocation ≠ [] ∧
        ∀ hx ∈ jx.allocation, (hostInfo s hx).isSome = true)
    (hj : j ∈ s.jobs) (hjr : j.isRunnable = true)
    (hhid : hid ∈ j.allocation) (hh : hostInfo s hid = some h)
    (hsleep : h.state = .sleeping) :
    ∃ s', s.startRunnableJobs = .ok s' ∧
      hostInfo s' hid = some { h with state := .switchingOn } ∧
      pstateRequested s' hid h.defaultPStateId ∧
      findJob s'.jobs j.id = some j := by
  obtain ⟨s', heq, hmono, hsleepC, hfind⟩ := startRunnableJobs_master s hrun hplat hwf
  obtain ⟨hswitched, hrequested⟩ := hsleepC j hj hjr hid hhid h hh hsleep
  refine ⟨s', heq, hswitched, hrequested, ?_⟩
  rcases hfind j.id with hl | ⟨j₂, hj₂, hj₂r, hjid, hidle⟩
  · rw [hl]
    exact findJob_of_mem_nodup s.jobs hnodup j hj
  · have hj₂j : j₂ = j := nodup_job_id_inj s.jobs hnodup j₂ j hj₂ hj hjid
    subst hj₂j
    have hcon := hidle hid hhid h hh
    rw [hsleep] at hcon
    cases hcon

/-- Claim C9 witness: the theorem applied to the state with one runnable
job allocated on the sleeping host 2 whose default power state is 1. -/
theorem claim9_witness :
    ∃ s', exSleepState.startRunnableJobs = .ok s' ∧
      hostInfo s' 2 = some { exHostSleeping with state := .switchingOn } ∧
      pstateRequested s' 2 exHostSleeping.defaultPStateId ∧
      findJob s'.jobs exJobSleepAlloc.id = some exJobSleepAlloc :=
  claim9_sleeping_host_auto_switched_on exSleepState exJobSleepAlloc 2 exHostSleeping
    rfl rfl (by decide) (by decide) (by simp [exSleepState, exBase]) rfl
    (by decide) rfl rfl

/-- Claim C10: the current_time property is the raw internal time rounded
to one decimal place, and this rounded value, not the raw engine
timestamp, is what the handler stamps on outgoing requests, records as a
job's start time, compares against in the past-time validation of
set_callback, and uses as the exact-match lookup key when a timer event
fires. -/
theorem claim10_rounded_time_used :
    (∀ s : SimState, s.currentTime = roundTenth s.rawTime) ∧
    (∀ (s : SimState) (jid : String) (j : Job),
        s.running = true → findJob s.jobs jid = some j →
        ((s.killJob jid).state).batsimRequests
          = s.batsimRequests ++ [.killJob (roundTenth s.rawTime) jid]) ∧
    (∀ (s : SimState) (j : Job) (hid : Nat) (h : Host),
        s.running = true → s.jobs = [j] → j.state = .allocated →
        j.allocation = [hid] → hostInfo s hid = some h → h.state = .idle →
        (findJob ((s.startRunnableJobs).state).jobs j.id).map Job.startTime
          = some (some (roundTenth s.rawTime))) ∧
    (∀ (s : SimState) (att : ℚ) (c : Callback),
        s.running = true → att ≤ roundTenth s.rawTime →
        s.setCallback att c = .error (.valueError, s)) ∧
    (∀ s : SimState,
        ((s.onBatsimRequestedCall).state).invoked
          = s.invoked ++ (callbacksAt s (roundTenth s.rawTime)).map
              (fun c => (c, roundTenth s.rawTime))) := by
  refine ⟨fun s => rfl, ?_, ?_, ?_, ?_⟩
  · intro s jid j hrun hfind
    simp [SimState.killJob, hrun, hfind, Act.state, SimState.currentTime]
  · intro s j hid h hrun hjobs hjstate hjalloc hh hidle
    have hget := getPlatformHost_of_hostInfo s hid h hh
    obtain ⟨p, hp⟩ := platform_of_hostInfo s hid h hh
    have hfilter : s.jobs.filter Job.isRunnable = [j] := by
      rw [hjobs]
      simp [List.filter, Job.isRunnable, hjstate]
    have hsl : h.isSleeping = false := by simp [Host.isSleeping, hidle]
    have hil : h.isIdle = true := by simp [Host.isIdle, hidle]
    have hcheck : checkAllocLoop s true j.allocation = .ok (s, true) := by
      rw [hjalloc]
      simp [checkAllocLoop, hget, hsl, hil]
    have hstart : j.jStart s.currentTime
        = .ok ({ j with state := .running, startTime := some s.currentTime }) := by
      unfold Job.jStart
      rw [if_pos hjstate]
    have hane : j.allocation ≠ [] := by rw [hjalloc]; simp
    have heval : s.startRunnableJobs = .ok ({ s with jobs := setJob s.jobs j.id ({ j with state := .running, startTime := some s.currentTime }), batsimRequests := s.batsimRequests ++ [.executeJob s.currentTime j.id j.allocation] }) := by
      unfold SimState.startRunnableJobs
      rw [if_neg (by simp [hrun]), if_neg (by simp [hp]), hfilter]
      simp only [startRunnableAux, hane, if_false, hcheck, if_true, hstart]
    rw [heval]
    simp only [Act.state]
    rw [hjobs]
    simp [setJob, findJob, SimState.currentTime]
  · intro s att c hrun hle
    simp [SimState.setCallback, hrun, SimState.currentTime, hle]
  · intro s
    show ((s.onBatsimRequestedCall).state).invoked
        = s.invoked ++ (callbacksAt s s.currentTime).map (fun c => (c, s.currentTime))
    unfold SimState.onBatsimRequestedCall
    cases hcb : lookupCallbacks s.callbacks s.currentTime with
    | none => simp [Act.state, callbacksAt, hcb]
    | some cbs =>
      simp only [Act.state, callbacksAt, hcb, Option.getD_some]
      exact foldInvoke_invoked _ _ _

/-- Claim C10 witness: each use site instantiated on a concrete state at
raw time 10 or 7.26. -/
theorem claim10_witness :
    exBase.currentTime = roundTenth exBase.rawTime ∧
    ((exRejectState.killJob "r").state).batsimRequests
      = exRejectState.batsimRequests
          ++ [.killJob (roundTenth exRejectState.rawTime) "r"] ∧
    (findJob ((exStartState.startRunnableJobs).state).jobs "a").map Job.startTime
      = some (some (roundTenth exStartState.rawTime)) ∧
    exBase.setCallback 5 (.user 1) = .error (.valueError, exBase) ∧
    ((exCbState.onBatsimRequestedCall).state).invoked
      = exCbState.invoked ++ (callbacksAt exCbState (roundTenth exCbState.rawTime)).map
          (fun c => (c, roundTenth exCbState.rawTime)) :=
  ⟨claim10_rounded_time_used.1 exBase,
   claim10_rounded_time_used.2.1 exRejectState "r" exJobRunning rfl rfl,
   claim10_rounded_time_used.2.2.1 exStartState exJobAlloc 0 exHostIdle rfl rfl rfl rfl rfl rfl,
   claim10_rounded_time_used.2.2.2.1 exBase 5 (.user 1) rfl (by decide),
   claim10_rounded_time_used.2.2.2.2 exCbState⟩

end BatsimPy
